import Mathlib

/-!
Shallow embedding of the reconciliation engine of the RoninBackEndExtension
repository: `app/sync_service.py` (folder-structure sync, per-folder image
sync, full orchestration) and `app/config_service.py` (the set-comparison
variant of the per-folder sync together with its Drive fetch helper).

Conventions used throughout the embedding:
* machine state is explicit: the database is a pair of row lists, a SQLModel
  session is (last committed state, current in-transaction state), the local
  file cache is a finite set of (folder id, file name) paths;
* the Google Drive server is modelled by the list of pages its paginated
  `files().list` endpoint would serve, each page either a list of entries or
  a raised exception;
* outcomes of external library calls that can fail (`datetime.fromisoformat`,
  `os.rename`, `os.remove`, `download_image_from_drive`, `session.commit`)
  are supplied as explicit oracle parameters.
-/

namespace RoninSync

/-- Python truthiness of an optional string: `None` and `""` are falsy. -/
def truthy : Option String → Bool
  | none => false
  | some s => s ≠ ""

/-- `parse_drive_datetime` from `app/sync_service.py`.  The value of a parsed
datetime is never inspected by the sync code beyond its `None`-ness, so the
datetime type is abstracted to `String`; `fromiso` stands for Python's
`datetime.fromisoformat`, returning `none` where that call would raise. -/
def parse_drive_datetime (fromiso : String → Option String)
    (iso_string : Option String) : Option String :=
  match iso_string with
  | none => none
  | some s => if s = "" then none else fromiso (s.replace "Z" "+00:00")

/-- Python `str.lower` (character-wise lowering). -/
def lowerStr (s : String) : String := ⟨s.data.map Char.toLower⟩

/-- Python `str.endswith` for one candidate suffix. -/
def endsWithStr (s suffix : String) : Bool := decide (suffix.data <:+ s.data)

/-- The tuple of extensions accepted by `ensure_extension`
(`app/sync_service.py`, line 58). -/
def valid_image_exts : List String := [".jpg", ".jpeg", ".png", ".gif", ".webp"]

/-- The `ext_map.get(mime_type, '.jpg')` lookup of `ensure_extension`
(`app/sync_service.py`, lines 62-69). -/
def ext_map_get (mime_type : String) : String :=
  if mime_type = "image/jpeg" then ".jpg"
  else if mime_type = "image/png" then ".png"
  else if mime_type = "image/gif" then ".gif"
  else if mime_type = "image/webp" then ".webp"
  else ".jpg"

/-- `ensure_extension` from `app/sync_service.py` (lines 46-70): keep the
name when it already ends (case-insensitively) in an accepted image
extension, otherwise append the extension mapped from the MIME type. -/
def ensure_extension (filename : String) (mime_type : String) : String :=
  if valid_image_exts.any (fun e => endsWithStr (lowerStr filename) e) then filename
  else filename ++ ext_map_get mime_type

/-- An entry of a Drive `files().list` page, restricted to the fields the
sync code requests: `id, name, mimeType, thumbnailLink, createdTime`. -/
structure DriveFile where
  id : String
  name : String
  mimeType : Option String := none
  thumbnailLink : Option String := none
  createdTime : Option String := none
deriving DecidableEq, Repr

/-- A row of the `images` table (`app/models.py`, class `Image`); the
datetime column is abstracted to `String` as in `parse_drive_datetime`. -/
structure Image where
  id : String
  name : String
  mime_type : Option String := none
  thumbnail_link : Option String := none
  created_time : Option String := none
  folder_id : Option String := none
deriving DecidableEq, Repr

/-- A row of the `folders` table (`app/models.py`, class `Folder`). -/
structure Folder where
  id : String
  name : String
  created_time : Option String := none
deriving DecidableEq, Repr

/-- The local database state: the two tables the reconciliation engine
writes. -/
structure DB where
  folders : List Folder
  images : List Image
deriving DecidableEq, Repr

/-- A SQLModel session: `saved` is the last committed state, `cur` the
in-transaction view produced by `session.add`/`session.delete`. -/
structure Sess where
  saved : DB
  cur : DB
deriving DecidableEq, Repr

/-- `session.commit()`: persist the in-transaction view. -/
def Sess.commit (s : Sess) : Sess := { saved := s.cur, cur := s.cur }

/-- `session.rollback()`: discard the in-transaction view. -/
def Sess.rollback (s : Sess) : Sess := { saved := s.saved, cur := s.saved }

/-- A session whose in-transaction view agrees with the committed state
(the state at entry of each sync function as called by the app). -/
def Sess.clean (s : Sess) : Prop := s.cur = s.saved

/-- The local file cache under `static_images/`: the set of
(folder id, file name) paths that exist on disk. -/
abbrev FS := Finset (String × String)

/-- One page served by the paginated Drive listing: either its entries,
or the exception `execute()` raises. -/
abbrev Page := Except String (List DriveFile)

/-- The pagination loops of `app/sync_service.py` (lines 110-127 and
254-269): follow `nextPageToken` accumulating every page; an exception
raised by any page propagates (there is no `try` inside these loops), so
the caller never sees a partial listing from them. -/
def collectPages : List Page → Except String (List DriveFile)
  | [] => .ok []
  | .error e :: _ => .error e
  | .ok fs :: rest =>
    match collectPages rest with
    | .error e => .error e
    | .ok more => .ok (fs ++ more)

/-- Oracles for the external effects of the per-folder image sync:
outcomes of `os.rename`, `os.remove`, `download_image_from_drive`, and
whether each of the two `session.commit()` calls raises. -/
structure SyncEnv where
  fromiso : String → Option String
  renameOk : String → String → Bool
  removeOk : String → Bool
  downloadOk : String → Bool
  commitFail1 : Bool := false
  commitFail2 : Bool := false

/-- Whether an `images` row belongs to the scope of one folder
(the `where` clause of lines 277-279). -/
def inFolder (folder_id : String) (i : Image) : Bool :=
  decide (i.folder_id = some folder_id)

/-- Whether a row is the scope row carrying Drive id `i` — the row that
`db_image_map.get(f["id"])` of line 293 designates. -/
def isScopeRow (folder_id i : String) (img : Image) : Bool :=
  decide (img.id = i ∧ img.folder_id = some folder_id)

/-- The insert branch of the insert-or-update loop
(`app/sync_service.py`, lines 295-307): a fresh `Image` row built from the
Drive entry. -/
def newImage (env : SyncEnv) (folder_id : String) (f : DriveFile) : Image :=
  { id := f.id
    name := f.name
    folder_id := some folder_id
    mime_type := f.mimeType
    thumbnail_link := f.thumbnailLink
    created_time := parse_drive_datetime env.fromiso f.createdTime }

/-- The update branch of the loop (lines 308-346): when the Drive name
changed, try to rename the cached file, and put the new name on the row
only if the rename succeeded or no cached file exists under the old name
afterwards; then refresh mime type and thumbnail link (their assignments
fire exactly when the value differs, so the resulting field always equals
the Drive value) and set a missing creation time when Drive supplies one.
Returns the updated row, the updated file cache and the `changed` flag. -/
def updateImage (env : SyncEnv) (folder_id : String) (f : DriveFile)
    (img : Image) (fs : FS) : Image × FS × Bool :=
  let nameRes : String × FS × Bool :=
    if img.name = f.name then (img.name, fs, false)
    else
      let oldEx := decide ((folder_id, img.name) ∈ fs)
      let newEx := decide ((folder_id, f.name) ∈ fs)
      let ren : Bool × FS :=
        if oldEx && !newEx && env.renameOk img.name f.name then
          (true, insert (folder_id, f.name) (fs.erase (folder_id, img.name)))
        else (false, fs)
      let oldExAfter := decide ((folder_id, img.name) ∈ ren.2)
      if ren.1 || !oldExAfter then (f.name, ren.2, true) else (img.name, ren.2, false)
  let mimeCh := !(decide (img.mime_type = f.mimeType))
  let thumbCh := !(decide (img.thumbnail_link = f.thumbnailLink))
  let ctCh := decide (img.created_time = none) && truthy f.createdTime
  let img' : Image :=
    { img with
      name := nameRes.1
      mime_type := f.mimeType
      thumbnail_link := f.thumbnailLink
      created_time :=
        if ctCh then parse_drive_datetime env.fromiso f.createdTime
        else img.created_time }
  (img', nameRes.2.1, nameRes.2.2 || mimeCh || thumbCh || ctCh)

/-- One iteration of the insert-or-update loop (lines 289-346).  The running
state is (session image rows, file cache, `synced_count`, `updated_count`);
`dbIds` is the id set of the scope rows captured at line 280, which the
loop consults in place of `db_image_map` (a lookup can therefore never
miss; the `none` branch is dead code kept for the translation). -/
def upsertStep (env : SyncEnv) (folder_id : String) (dbIds : List String)
    (st : List Image × FS × Nat × Nat) (f : DriveFile) :
    List Image × FS × Nat × Nat :=
  let imgs := st.1
  let fs := st.2.1
  let synced := st.2.2.1
  let updated := st.2.2.2
  if f.id ∈ dbIds then
    match imgs.find? (isScopeRow folder_id f.id) with
    | none => (imgs, fs, synced, updated)
    | some img =>
      let r := updateImage env folder_id f img fs
      (imgs.map (fun i => if isScopeRow folder_id f.id i then r.1 else i),
       r.2.1, synced, updated + (if r.2.2 then 1 else 0))
  else
    (imgs ++ [newImage env folder_id f], fs, synced + 1, updated)

/-- The whole insert-or-update phase: fold the loop body over the fetched
Drive entries. -/
def imgUpsert (env : SyncEnv) (folder_id : String) (dbIds : List String)
    (files : List DriveFile) (imgs : List Image) (fs : FS) :
    List Image × FS × Nat × Nat :=
  files.foldl (upsertStep env folder_id dbIds) (imgs, fs, 0, 0)

/-- The deletion loop (lines 352-368): for each id present locally but
absent remotely, best-effort remove the cached file, then delete the row;
returns the remaining rows, the file cache and `deleted_count`. -/
def imgDeleteLoop (env : SyncEnv) (folder_id : String) :
    List String → List Image → FS → List Image × FS × Nat
  | [], imgs, fs => (imgs, fs, 0)
  | i :: rest, imgs, fs =>
    match imgs.find? (isScopeRow folder_id i) with
    | none => imgDeleteLoop env folder_id rest imgs fs
    | some img =>
      let fs₁ :=
        if (folder_id, img.name) ∈ fs then
          if env.removeOk img.name then fs.erase (folder_id, img.name) else fs
        else fs
      let r := imgDeleteLoop env folder_id rest
        (imgs.filter (fun x => !(isScopeRow folder_id i x))) fs₁
      (r.1, r.2.1, r.2.2 + 1)

/-- `files_to_download` (lines 372-383): Drive entries whose normalized
local filename (`ensure_extension`) is not yet cached. -/
def filesToDownload (folder_id : String) (files : List DriveFile) (fs : FS) :
    List (String × String) :=
  (files.map (fun f => (f.id, ensure_extension f.name (f.mimeType.getD "image/jpeg")))).filter
    (fun p => decide ((folder_id, p.2) ∉ fs))

/-- The download loop (lines 385-399): per-file errors are caught, a
successful download writes the cache entry and bumps `downloaded_count`. -/
def downloadLoop (env : SyncEnv) (folder_id : String) :
    List (String × String) → FS → FS × Nat
  | [], fs => (fs, 0)
  | p :: rest, fs =>
    if env.downloadOk p.1 then
      let r := downloadLoop env folder_id rest (insert (folder_id, p.2) fs)
      (r.1, r.2 + 1)
    else
      downloadLoop env folder_id rest fs

/-- The result dictionary of `sync_images_in_folder` (success shape of
lines 407-416, failure shape of lines 424-428). -/
structure ImgSyncResult where
  success : Bool
  folder_id : String
  total_images : Nat := 0
  new_db_records : Nat := 0
  updated_db_records : Nat := 0
  deleted_db_records : Nat := 0
  downloaded_files : Nat := 0
  skipped_files : Nat := 0
  error : Option String := none
deriving DecidableEq, Repr

/-- `sync_images_in_folder` from `app/sync_service.py` (lines 224-428).
Note the two commits: one right after the insert-or-update phase
(line 348) and one after deletions and downloads (line 402); any raised
exception reaches the `except` of line 421, which rolls the session back
and returns a failure dictionary. -/
def syncImagesInFolder (env : SyncEnv) (folder_id : String) (pages : List Page)
    (sess : Sess) (fs : FS) : ImgSyncResult × Sess × FS :=
  match collectPages pages with
  | .error e => ({ success := false, folder_id := folder_id, error := some e }, sess.rollback, fs)
  | .ok all_files =>
    let drive_ids := all_files.map (·.id)
    let db_ids := (sess.cur.images.filter (inFolder folder_id)).map (·.id)
    let up := imgUpsert env folder_id db_ids all_files sess.cur.images fs
    let sess₁ : Sess := { sess with cur := { sess.cur with images := up.1 } }
    if env.commitFail1 then
      ({ success := false, folder_id := folder_id, error := some "commit failed" },
       sess₁.rollback, up.2.1)
    else
      let sess₂ := sess₁.commit
      let toDelete := db_ids.filter (fun i => !(drive_ids.contains i))
      let del := imgDeleteLoop env folder_id toDelete sess₂.cur.images up.2.1
      let sess₃ : Sess := { sess₂ with cur := { sess₂.cur with images := del.1 } }
      let dl := downloadLoop env folder_id (filesToDownload folder_id all_files del.2.1) del.2.1
      if env.commitFail2 then
        ({ success := false, folder_id := folder_id, error := some "commit failed" },
         sess₃.rollback, dl.1)
      else
        ({ success := true
           folder_id := folder_id
           total_images := all_files.length
           new_db_records := up.2.2.1
           updated_db_records := up.2.2.2
           deleted_db_records := del.2.2
           downloaded_files := dl.2
           skipped_files := all_files.length - (filesToDownload folder_id all_files del.2.1).length },
         sess₃.commit, dl.1)

/-- Oracles for the external effects of the folder-structure sync. -/
structure StructEnv where
  fromiso : String → Option String
  removeOk : String → Bool
  commitFail : Bool := false

/-- One observable `session.delete` call of the folder-deletion loop
(`app/sync_service.py`, lines 166-190): an image-row delete or a
folder-row delete. -/
inductive DelOp where
  | img (i : Image)
  | fld (f : Folder)
deriving DecidableEq, Repr

/-- The result dictionary of `sync_folder_structure` (success shape of
lines 204-210, the two failure shapes of lines 98-101 and 218-221). -/
structure FolderSyncResult where
  success : Bool
  total_folders : Nat := 0
  new_folders : Nat := 0
  updated_folders : Nat := 0
  deleted_folders : Nat := 0
  message : Option String := none
  error : Option String := none
deriving DecidableEq, Repr

/-- Whether a `folders` row carries id `i`. -/
def isFolderRow (i : String) (f : Folder) : Bool := decide (f.id = i)

/-- One iteration of the folder insert-or-update loop (lines 142-161):
insert a missing folder, or update its name when Drive renamed it.  State
is (folder rows, `new_count`, `updated_count`); `dbIds` is the id set
captured at line 134 standing in for `db_folder_map`. -/
def folderUpsertStep (env : StructEnv) (dbIds : List String)
    (st : List Folder × Nat × Nat) (f : DriveFile) : List Folder × Nat × Nat :=
  let fl := st.1
  if f.id ∈ dbIds then
    match fl.find? (isFolderRow f.id) with
    | none => st
    | some fr =>
      if fr.name = f.name then st
      else
        (fl.map (fun x => if isFolderRow f.id x then { x with name := f.name } else x),
         st.2.1, st.2.2 + 1)
  else
    (fl ++ [{ id := f.id, name := f.name,
              created_time := parse_drive_datetime env.fromiso f.createdTime }],
     st.2.1 + 1, st.2.2)

/-- The whole folder insert-or-update phase. -/
def folderUpsert (env : StructEnv) (dbIds : List String)
    (files : List DriveFile) (fl : List Folder) : List Folder × Nat × Nat :=
  files.foldl (folderUpsertStep env dbIds) (fl, 0, 0)

/-- The folder-deletion loop (lines 166-200): for each locally known
folder id absent from Drive, best-effort remove each of its images' cached
files and delete the image rows, then delete the folder row.  Besides the
resulting state it returns `deleted_count` and the ordered trace of
`session.delete` calls.  (The removal of an empty local directory at lines
192-200 touches no modelled state.) -/
def folderDeleteLoop (env : StructEnv) :
    List String → DB → FS → DB × FS × Nat × List DelOp
  | [], db, fs => (db, fs, 0, [])
  | fid :: rest, db, fs =>
    match db.folders.find? (isFolderRow fid) with
    | none => folderDeleteLoop env rest db fs
    | some fr =>
      let imgsIn := db.images.filter (inFolder fid)
      let fs₁ := imgsIn.foldl (fun a i =>
          if (fid, i.name) ∈ a then
            if env.removeOk i.name then a.erase (fid, i.name) else a
          else a) fs
      let db₁ : DB :=
        { folders := db.folders.filter (fun x => !(isFolderRow fid x)),
          images := db.images.filter (fun i => !(inFolder fid i)) }
      let r := folderDeleteLoop env rest db₁ fs₁
      (r.1, r.2.1, r.2.2.1 + 1, (imgsIn.map DelOp.img ++ [DelOp.fld fr]) ++ r.2.2.2)

/-- `sync_folder_structure` from `app/sync_service.py` (lines 73-221).
`rootLookup` models the `files().list` call locating the root folder
(line 93): either its item list or the exception it raises; `pages` models
the paginated sub-folder listing.  One commit at line 202; any raised
exception reaches the `except` of line 215, which rolls back and returns a
failure dictionary. -/
def syncFolderStructure (env : StructEnv)
    (rootLookup : Except String (List (String × String)))
    (pages : List Page) (sess : Sess) (fs : FS) :
    FolderSyncResult × Sess × FS × List DelOp :=
  match rootLookup with
  | .error e => ({ success := false, error := some e }, sess.rollback, fs, [])
  | .ok items =>
    if items.isEmpty then
      ({ success := false, message := some "Folder RONIN_CMS not found" }, sess, fs, [])
    else
      match collectPages pages with
      | .error e => ({ success := false, error := some e }, sess.rollback, fs, [])
      | .ok all_folders =>
        let drive_folder_ids := all_folders.map (·.id)
        let db_folder_ids := sess.cur.folders.map (·.id)
        let upF := folderUpsert env db_folder_ids all_folders sess.cur.folders
        let toDelete := db_folder_ids.filter (fun i => !(drive_folder_ids.contains i))
        let delR := folderDeleteLoop env toDelete
          { folders := upF.1, images := sess.cur.images } fs
        let sess₁ : Sess := { sess with cur := delR.1 }
        if env.commitFail then
          ({ success := false, error := some "commit failed" },
           sess₁.rollback, delR.2.1, delR.2.2.2)
        else
          ({ success := true
             total_folders := all_folders.length
             new_folders := upF.2.1
             updated_folders := upF.2.2
             deleted_folders := delR.2.2.1 }, sess₁.commit, delR.2.1, delR.2.2.2)

/-- One entry of the list returned by `sync_all_folders`
(`app/sync_service.py`): the structure-phase report or one folder's
content report. -/
inductive RunReport where
  | structRes (r : FolderSyncResult)
  | content (r : ImgSyncResult)
deriving DecidableEq, Repr

/-- The per-folder loop of `sync_all_folders` (lines 468-471): every folder
is attempted in order; each result is appended regardless of success
(`sync_images_in_folder` catches its own exceptions and returns a failure
dictionary instead of raising). -/
def syncContentLoop (env : SyncEnv) (imgPages : String → List Page) :
    List Folder → Sess → FS → List RunReport × Sess × FS
  | [], sess, fs => ([], sess, fs)
  | f :: rest, sess, fs =>
    let r := syncImagesInFolder env f.id (imgPages f.id) sess fs
    let rr := syncContentLoop env imgPages rest r.2.1 r.2.2
    (RunReport.content r.1 :: rr.1, rr.2.1, rr.2.2)

/-- `sync_all_folders` from `app/sync_service.py` (lines 431-497): run the
structure sync; on its failure return only that report (lines 450-452);
otherwise read the surviving folders from the database and sync each
folder's content in turn. -/
def syncAllFolders (envS : StructEnv) (envI : SyncEnv)
    (rootLookup : Except String (List (String × String)))
    (structPages : List Page) (imgPages : String → List Page)
    (sess : Sess) (fs : FS) : List RunReport × Sess × FS :=
  let s := syncFolderStructure envS rootLookup structPages sess fs
  if s.1.success then
    let c := syncContentLoop envI imgPages s.2.1.cur.folders s.2.1 s.2.2.1
    (RunReport.structRes s.1 :: c.1, c.2.1, c.2.2)
  else
    ([RunReport.structRes s.1], s.2.1, s.2.2.1)

/-- The value stored per file id by `fetch_all_files_from_drive`
(`app/config_service.py`, lines 31-35). -/
structure CfgInfo where
  name : String
  thumbnail : Option String
deriving DecidableEq, Repr

/-- Python dict assignment `drive_files[f['id']] = {...}` on an
association list: overwrite an existing key, else append. -/
def dictInsert (m : List (String × CfgInfo)) (k : String) (v : CfgInfo) :
    List (String × CfgInfo) :=
  if (m.map Prod.fst).contains k then
    m.map (fun p => if p.1 = k then (k, v) else p)
  else m ++ [(k, v)]

/-- The page loop of `fetch_all_files_from_drive` with its accumulated
dict: an exception from a page request is caught (line 40), printed, and
the loop `break`s, so the entries accumulated so far are returned. -/
def fetchAllGo : List Page → List (String × CfgInfo) → List (String × CfgInfo)
  | [], acc => acc
  | .error _ :: _, acc => acc
  | .ok pfs :: rest, acc =>
    fetchAllGo rest (pfs.foldl
      (fun m f => dictInsert m f.id { name := f.name, thumbnail := f.thumbnailLink }) acc)

/-- `fetch_all_files_from_drive` from `app/config_service.py`
(lines 9-44). -/
def fetch_all_files_from_drive (pages : List Page) : List (String × CfgInfo) :=
  fetchAllGo pages []

/-- `chunk_size = 1000` (`app/config_service.py`, line 77). -/
def chunk_size : Nat := 1000

/-- Structural helper for the chunk decomposition: each step drops at
least one element, so a recursion budget of `l.length` always suffices. -/
def chunksGo (fuel : Nat) (l : List α) : List (List α) :=
  match fuel, l with
  | 0, _ => []
  | _ + 1, [] => []
  | fuel + 1, a :: t => (a :: t).take chunk_size :: chunksGo fuel ((a :: t).drop chunk_size)

/-- The chunk decomposition performed by
`for i in range(0, len(delete_list), chunk_size): chunk = delete_list[i:i + chunk_size]`
(lines 79-80). -/
def chunksOf1000 (l : List α) : List (List α) := chunksGo l.length l

/-- One bulk `delete(Image).where(Image.id.in_(chunk))` statement
(line 81); note it filters by id only, with no folder condition. -/
def applyDeleteChunk (db : DB) (chunk : List String) : DB :=
  { db with images := db.images.filter (fun i => !(chunk.contains i.id)) }

/-- The chunked bulk delete of lines 76-82. -/
def cfgBulkDelete (db : DB) (delete_list : List String) : DB :=
  (chunksOf1000 delete_list).foldl applyDeleteChunk db

/-- The result dictionary of `sync_images_in_folder` from
`app/config_service.py` (lines 107-112); the wall-clock `duration` entry
is not modelled. -/
structure CfgResult where
  inserted : Nat
  deleted : Nat
  total_active : Nat
deriving DecidableEq, Repr

/-- `sync_images_in_folder` from `app/config_service.py` (lines 47-112):
fetch the remote dict (partial on swallowed errors), compute the two set
differences, bulk-delete in chunks, bulk-insert the new rows, and commit
once.  The function has no failure branch of its own: whatever
`fetch_all_files_from_drive` returns is treated as the remote set. -/
def cfgSyncImagesInFolder (pages : List Page) (folder_id : String)
    (sess : Sess) : CfgResult × Sess :=
  let drive_map := fetch_all_files_from_drive pages
  let drive_ids := drive_map.map Prod.fst
  let db_ids := (sess.cur.images.filter (inFolder folder_id)).map (·.id)
  let ids_to_insert := drive_ids.filter (fun i => !(db_ids.contains i))
  let ids_to_delete := db_ids.filter (fun i => !(drive_ids.contains i))
  let db₁ := if ids_to_delete.isEmpty then sess.cur else cfgBulkDelete sess.cur ids_to_delete
  let new_objects : List Image := ids_to_insert.filterMap (fun fid =>
    (drive_map.lookup fid).map (fun info =>
      { id := fid, name := info.name, thumbnail_link := info.thumbnail,
        folder_id := some folder_id }))
  let db₂ := if ids_to_insert.isEmpty then db₁
    else { db₁ with images := db₁.images ++ new_objects }
  let sess₁ := Sess.commit { sess with cur := db₂ }
  ({ inserted := ids_to_insert.length, deleted := ids_to_delete.length,
     total_active := drive_ids.length }, sess₁)

/-- The identity-relevant projection of an `images` row: its primary key
and owning folder — the two columns the diff operates on. -/
def pairOf (i : Image) : String × Option String := (i.id, i.folder_id)

/-- An `images` row mirrors a Drive entry when every tracked field already
agrees: equal name, mime type and thumbnail link, and a stored creation
time whenever Drive supplies a truthy `createdTime`.  A successful pass
leaves exactly this state when no rename is blocked by the file cache and
every supplied `createdTime` parses. -/
def mirrors (f : DriveFile) (i : Image) : Prop :=
  i.name = f.name ∧ i.mime_type = f.mimeType ∧ i.thumbnail_link = f.thumbnailLink ∧
    (truthy f.createdTime = true → i.created_time ≠ none)

/-- `mirrors` is decidable, so concrete witnesses can be checked by
evaluation. -/
instance (f : DriveFile) (i : Image) : Decidable (mirrors f i) := by
  unfold mirrors
  infer_instance

/-- Referential integrity of the local database: every `images` row's
owning folder id names an existing `folders` row. -/
def noOrphans (db : DB) : Bool :=
  db.images.all (fun i =>
    match i.folder_id with
    | none => true
    | some fi => db.folders.any (fun fo => decide (fo.id = fi)))

/-- The deletion order asserted by the specification for a whole deletion
set: every image-row delete precedes every folder-row delete in the
trace. -/
def allImgOpsFirst (tr : List DelOp) : Prop :=
  ∀ (j k : Nat) (f : Folder) (i : Image), tr[j]? = some (DelOp.fld f) → tr[k]? = some (DelOp.img i) → k < j

/-- The per-folder deletion order the code actually implements: after a
folder row's delete op, no image of that folder is ever deleted. -/
def eachFolderImagesFirst (tr : List DelOp) : Prop :=
  ∀ (j k : Nat) (f : Folder) (i : Image), tr[j]? = some (DelOp.fld f) → tr[k]? = some (DelOp.img i) →
    i.folder_id = some f.id → k < j

/-! ## Lemmas about `ensure_extension` -/

lemma lowerStr_append (a b : String) : lowerStr (a ++ b) = lowerStr a ++ lowerStr b := by
  apply String.ext
  simp [lowerStr, String.data_append]

lemma endsWithStr_append_self (a b : String) : endsWithStr (a ++ b) b = true := by
  simp [endsWithStr, String.data_append]

lemma ext_map_get_mem_valid (m : String) : ext_map_get m ∈ valid_image_exts := by
  unfold ext_map_get valid_image_exts
  split_ifs <;> simp

lemma lowerStr_ext_map_get (m : String) : lowerStr (ext_map_get m) = ext_map_get m := by
  unfold ext_map_get
  split_ifs <;> decide

lemma ensure_extension_ends_valid (filename mime_type : String) :
    valid_image_exts.any
      (fun e => endsWithStr (lowerStr (ensure_extension filename mime_type)) e) = true := by
  unfold ensure_extension
  by_cases h : valid_image_exts.any (fun e => endsWithStr (lowerStr filename) e) = true
  · simp [h]
  · rw [if_neg h]
    refine List.any_eq_true.mpr ⟨ext_map_get mime_type, ext_map_get_mem_valid mime_type, ?_⟩
    rw [lowerStr_append, lowerStr_ext_map_get]
    exact endsWithStr_append_self _ _

/-- C10: `ensure_extension` is normalizing and idempotent: a filename
already ending case-insensitively in `.jpg`, `.jpeg`, `.png`, `.gif` or
`.webp` is returned unchanged; otherwise the extension mapped from the
MIME type (`.jpg` for a MIME type outside the map) is appended; the result
always ends case-insensitively in one of those five extensions, and
applying the function twice with the same MIME type equals applying it
once. -/
theorem claimC10_ensure_extension_normalizing_idempotent (filename mime_type : String) :
    (valid_image_exts.any (fun e => endsWithStr (lowerStr filename) e) = true →
      ensure_extension filename mime_type = filename) ∧
    (valid_image_exts.any (fun e => endsWithStr (lowerStr filename) e) = false →
      ensure_extension filename mime_type = filename ++ ext_map_get mime_type) ∧
    (mime_type ∉ (["image/jpeg", "image/png", "image/gif", "image/webp"] : List String) →
      ext_map_get mime_type = ".jpg") ∧
    valid_image_exts.any
      (fun e => endsWithStr (lowerStr (ensure_extension filename mime_type)) e) = true ∧
    ensure_extension (ensure_extension filename mime_type) mime_type =
      ensure_extension filename mime_type := by
  refine ⟨?_, ?_, ?_, ensure_extension_ends_valid filename mime_type, ?_⟩
  · intro h
    simp [ensure_extension, h]
  · intro h
    simp [ensure_extension, h]
  · intro h
    unfold ext_map_get
    split_ifs with h1 h2 h3 h4 <;> simp_all
  · have hX := ensure_extension_ends_valid filename mime_type
    generalize hG : ensure_extension filename mime_type = X at hX ⊢
    simp [ensure_extension, hX]

/-- Witness for C10 at concrete inputs: an extensionless name gets `.png`
appended for MIME type `image/png`, and a name already carrying an upper
case `.JPG` extension is kept. -/
theorem claimC10_witness :
    ensure_extension "photo" "image/png" = "photo.png" ∧
    ensure_extension "photo.JPG" "image/jpeg" = "photo.JPG" := by
  constructor
  · have h := (claimC10_ensure_extension_normalizing_idempotent "photo" "image/png").2.1
      (by decide)
    simpa using h
  · exact (claimC10_ensure_extension_normalizing_idempotent "photo.JPG" "image/jpeg").1
      (by decide)

/-! ## C3 and C1: the swallowed listing error of
`fetch_all_files_from_drive` and its consequence in the set-comparison
sync pass -/

/-- C3 (refutation by evaluation at the failing input): when the first
page succeeds with one file and the second page request raises,
`fetch_all_files_from_drive` surfaces the first page alone as if it were
the complete listing — it neither exhausts pagination nor fails with an
error — while the pagination loops of `app/sync_service.py`
(`collectPages`) propagate the same error instead of surfacing a partial
set. -/
theorem claimC3_fetch_surfaces_partial_listing :
    fetch_all_files_from_drive
      [Except.ok [{ id := "A", name := "a.jpg" }],
       Except.error "rate limit",
       Except.ok [{ id := "B", name := "b.jpg" }]] =
      [("A", { name := "a.jpg", thumbnail := none })] ∧
    collectPages
      [Except.ok [{ id := "A", name := "a.jpg" }],
       Except.error "rate limit",
       Except.ok [{ id := "B", name := "b.jpg" }]] =
      Except.error "rate limit" :=
  ⟨rfl, rfl⟩

/-- C1 (refutation by evaluation at the failing input): a sync pass of
`app/config_service.py` over folder `f1` holding local rows A, B, C, whose
remote listing raises on its first page (zero items flagged as a query
failure, no confirmed-empty signal anywhere): the pass does not abort — it
deletes and commits away all three local rows and reports
`deleted = 3` with no failure indication in its result. -/
theorem claimC1_failed_listing_wipes_local_rows :
    (cfgSyncImagesInFolder [Except.error "network down"] "f1"
        { saved :=
            { folders := [{ id := "f1", name := "F1" }],
              images :=
                [{ id := "A", name := "a.jpg", folder_id := some "f1" },
                 { id := "B", name := "b.jpg", folder_id := some "f1" },
                 { id := "C", name := "c.jpg", folder_id := some "f1" }] },
          cur :=
            { folders := [{ id := "f1", name := "F1" }],
              images :=
                [{ id := "A", name := "a.jpg", folder_id := some "f1" },
                 { id := "B", name := "b.jpg", folder_id := some "f1" },
                 { id := "C", name := "c.jpg", folder_id := some "f1" }] } }).1 =
      { inserted := 0, deleted := 3, total_active := 0 } ∧
    (cfgSyncImagesInFolder [Except.error "network down"] "f1"
        { saved :=
            { folders := [{ id := "f1", name := "F1" }],
              images :=
                [{ id := "A", name := "a.jpg", folder_id := some "f1" },
                 { id := "B", name := "b.jpg", folder_id := some "f1" },
                 { id := "C", name := "c.jpg", folder_id := some "f1" }] },
          cur :=
            { folders := [{ id := "f1", name := "F1" }],
              images :=
                [{ id := "A", name := "a.jpg", folder_id := some "f1" },
                 { id := "B", name := "b.jpg", folder_id := some "f1" },
                 { id := "C", name := "c.jpg", folder_id := some "f1" }] } }).2.saved.images =
      [] := by
  decide

/-! ## C7: chunked bulk deletion -/

lemma chunksGo_length (fuel : Nat) : ∀ l : List α, l.length ≤ fuel →
    (chunksGo fuel l).length = (l.length + 999) / 1000 := by
  induction fuel with
  | zero =>
    intro l h
    have : l = [] := List.length_eq_zero.mp (Nat.le_zero.mp h)
    subst this
    simp [chunksGo]
  | succ n ih =>
    intro l h
    cases l with
    | nil => simp [chunksGo]
    | cons a t =>
      have hd : ((a :: t).drop chunk_size).length ≤ n := by
        simp only [List.length_drop, List.length_cons, chunk_size]
        simp only [List.length_cons] at h
        omega
      simp only [chunksGo, List.length_cons]
      rw [ih _ hd]
      simp only [List.length_drop, List.length_cons, chunk_size]
      simp only [List.length_cons] at h
      omega

lemma chunksGo_sizes (fuel : Nat) : ∀ l : List α, ∀ c ∈ chunksGo fuel l,
    c.length ≤ 1000 := by
  induction fuel with
  | zero => simp [chunksGo]
  | succ n ih =>
    intro l c hc
    cases l with
    | nil => simp [chunksGo] at hc
    | cons a t =>
      simp only [chunksGo, List.mem_cons] at hc
      rcases hc with rfl | hc
      · simp [chunk_size]
      · exact ih _ c hc

lemma chunksGo_join (fuel : Nat) : ∀ l : List α, l.length ≤ fuel →
    (chunksGo fuel l).flatten = l := by
  induction fuel with
  | zero =>
    intro l h
    have : l = [] := List.length_eq_zero.mp (Nat.le_zero.mp h)
    subst this
    simp [chunksGo]
  | succ n ih =>
    intro l h
    cases l with
    | nil => simp [chunksGo]
    | cons a t =>
      have hd : ((a :: t).drop chunk_size).length ≤ n := by
        simp only [List.length_drop, List.length_cons, chunk_size]
        simp only [List.length_cons] at h
        omega
      simp only [chunksGo, List.flatten_cons, ih _ hd, List.take_append_drop]

lemma foldl_applyDeleteChunk (cs : List (List String)) (db : DB) :
    (cs.foldl applyDeleteChunk db).images =
      db.images.filter (fun i => !((cs.flatten).contains i.id)) := by
  induction cs generalizing db with
  | nil => simp
  | cons c cs ih =>
    rw [List.foldl_cons, ih]
    simp only [applyDeleteChunk, List.filter_filter, List.flatten_cons]
    congr 1
    funext i
    simp [List.elem_eq_mem, Bool.and_comm]

/-- C7: a batch of `n` image ids is deleted in `ceil(n / 1000)` chunks of
at most 1000 ids per delete statement, and after all chunks execute no row
with one of the batch ids remains in the `images` table. -/
theorem claimC7_chunked_deletion (ids : List String) (db : DB) :
    (chunksOf1000 ids).length = (ids.length + 999) / 1000 ∧
    (∀ c ∈ chunksOf1000 ids, c.length ≤ 1000) ∧
    ∀ i ∈ (cfgBulkDelete db ids).images, ids.contains i.id = false := by
  refine ⟨chunksGo_length ids.length ids le_rfl, chunksGo_sizes ids.length ids, ?_⟩
  intro i hi
  rw [cfgBulkDelete, foldl_applyDeleteChunk] at hi
  have := List.of_mem_filter hi
  rw [chunksOf1000, chunksGo_join ids.length ids le_rfl] at this
  simpa using this

/-- Witness for C7: 2,500 ids produce exactly 3 chunks, and no id of the
batch survives the bulk delete on a one-row table holding one of them. -/
theorem claimC7_witness :
    (chunksOf1000 ((List.range 2500).map toString)).length = 3 ∧
    ∀ i ∈ (cfgBulkDelete { folders := [], images := [{ id := "5", name := "x" }] }
        ((List.range 2500).map toString)).images,
      ((List.range 2500).map toString).contains i.id = false := by
  constructor
  · have h := (claimC7_chunked_deletion ((List.range 2500).map toString)
      { folders := [], images := [] }).1
    rw [h]
    simp
  · exact (claimC7_chunked_deletion ((List.range 2500).map toString)
      { folders := [], images := [{ id := "5", name := "x" }] }).2.2

/-! ## Structural lemmas about the phases of `sync_images_in_folder` -/

lemma updateImage_pair (env : SyncEnv) (folder_id : String) (f : DriveFile)
    (img : Image) (fs : FS) :
    pairOf (updateImage env folder_id f img fs).1 = pairOf img := rfl

lemma newImage_pair (env : SyncEnv) (folder_id : String) (f : DriveFile) :
    pairOf (newImage env folder_id f) = (f.id, some folder_id) := rfl

lemma isScopeRow_pair {folder_id x : String} {i : Image}
    (h : isScopeRow folder_id x i = true) : pairOf i = (x, some folder_id) := by
  simp [isScopeRow] at h
  simp [pairOf, h.1, h.2]

lemma imgUpsert_pairs (env : SyncEnv) (folder_id : String) (dbIds : List String) :
    ∀ (files : List DriveFile) (imgs : List Image) (fs : FS) (s u : Nat),
      ((files.foldl (upsertStep env folder_id dbIds) (imgs, fs, s, u)).1).map pairOf =
        imgs.map pairOf ++
          (files.filter (fun f => decide (f.id ∉ dbIds))).map (fun f => (f.id, some folder_id)) := by
  intro files
  induction files with
  | nil => intro imgs fs s u; simp
  | cons f rest ih =>
    intro imgs fs s u
    rw [List.foldl_cons]
    by_cases hmem : f.id ∈ dbIds
    · have hd : decide (f.id ∉ dbIds) = false := by simp [hmem]
      have hstep : upsertStep env folder_id dbIds (imgs, fs, s, u) f =
          match imgs.find? (isScopeRow folder_id f.id) with
          | none => (imgs, fs, s, u)
          | some img =>
            ((imgs.map (fun i => if isScopeRow folder_id f.id i then
                (updateImage env folder_id f img fs).1 else i)),
             (updateImage env folder_id f img fs).2.1, s,
             u + (if (updateImage env folder_id f img fs).2.2 then 1 else 0)) := by
        simp [upsertStep, hmem]
      cases hfind : imgs.find? (isScopeRow folder_id f.id) with
      | none =>
        simp only [hstep, hfind, ih]
        simp [List.filter_cons, hd, hmem]
      | some img =>
        have hmap : (imgs.map (fun i =>
            if isScopeRow folder_id f.id i then (updateImage env folder_id f img fs).1 else i)).map
              pairOf = imgs.map pairOf := by
          rw [List.map_map]
          apply List.map_congr_left
          intro a _
          by_cases hp : isScopeRow folder_id f.id a = true
          · have h₁ : pairOf (updateImage env folder_id f img fs).1 = pairOf img :=
              updateImage_pair env folder_id f img fs
            have h₂ : pairOf img = (f.id, some folder_id) :=
              isScopeRow_pair (List.find?_some hfind)
            have h₃ : pairOf a = (f.id, some folder_id) := isScopeRow_pair hp
            simp [Function.comp, hp, h₁, h₂, h₃]
          · simp [Function.comp, hp]
        simp only [hstep, hfind, ih, hmap]
        simp [List.filter_cons, hd, hmem]
    · have hd : decide (f.id ∉ dbIds) = true := by simp [hmem]
      have hstep : upsertStep env folder_id dbIds (imgs, fs, s, u) f =
          (imgs ++ [newImage env folder_id f], fs, s + 1, u) := by
        simp [upsertStep, hmem]
      rw [hstep, ih]
      simp [List.filter_cons, hd, hmem, newImage_pair]

lemma imgDeleteLoop_images (env : SyncEnv) (folder_id : String) :
    ∀ (ids : List String) (imgs : List Image) (fs : FS),
      (imgDeleteLoop env folder_id ids imgs fs).1 =
        imgs.filter (fun x => !(decide (x.id ∈ ids) && inFolder folder_id x)) := by
  intro ids
  induction ids with
  | nil => intro imgs fs; simp [imgDeleteLoop]
  | cons i rest ih =>
    intro imgs fs
    rw [imgDeleteLoop]
    cases hfind : imgs.find? (isScopeRow folder_id i) with
    | none =>
      simp only [ih]
      apply List.filter_congr
      intro x hx
      have hnot := List.find?_eq_none.mp hfind x hx
      simp only [isScopeRow, decide_eq_true_eq, not_and] at hnot
      by_cases hfol : x.folder_id = some folder_id
      · have hid : ¬ x.id = i := fun h => hnot h hfol
        simp [inFolder, hfol, hid]
      · simp [inFolder, hfol]
    | some img =>
      simp only [ih, List.filter_filter]
      apply List.filter_congr
      intro x _
      by_cases hfol : x.folder_id = some folder_id
      · by_cases hid : x.id = i <;> simp [inFolder, isScopeRow, hfol, hid]
      · simp [inFolder, isScopeRow, hfol]

lemma mem_scope_ids_iff (folder_id x : String) (l : List Image) :
    x ∈ (l.filter (inFolder folder_id)).map (fun i => i.id) ↔
      (x, some folder_id) ∈ l.map pairOf := by
  simp only [List.mem_map, List.mem_filter, pairOf, inFolder, decide_eq_true_eq, Prod.mk.injEq]
  constructor
  · rintro ⟨i, ⟨hi, hfol⟩, hid⟩
    exact ⟨i, hi, hid, hfol⟩
  · rintro ⟨i, hi, hid, hfol⟩
    exact ⟨i, ⟨hi, hfol⟩, hid⟩

/-- Normal form of a failure-free `sync_images_in_folder` run: the final
session persists the upsert result filtered by the deletion set, and the
report carries the phase counters. -/
lemma syncImages_ok_unfold (env : SyncEnv) (folder_id : String) (pages : List Page)
    (sess : Sess) (fs : FS) (files : List DriveFile)
    (hpages : collectPages pages = .ok files)
    (hc1 : env.commitFail1 = false) (hc2 : env.commitFail2 = false) :
    syncImagesInFolder env folder_id pages sess fs =
      (let db_ids := (sess.cur.images.filter (inFolder folder_id)).map (fun i => i.id)
       let up := imgUpsert env folder_id db_ids files sess.cur.images fs
       let toDelete := db_ids.filter (fun i => !((files.map (fun f => f.id)).contains i))
       let del := imgDeleteLoop env folder_id toDelete up.1 up.2.1
       let dl := downloadLoop env folder_id (filesToDownload folder_id files del.2.1) del.2.1
       ({ success := true
          folder_id := folder_id
          total_images := files.length
          new_db_records := up.2.2.1
          updated_db_records := up.2.2.2
          deleted_db_records := del.2.2
          downloaded_files := dl.2
          skipped_files := files.length - (filesToDownload folder_id files del.2.1).length },
        { saved := { sess.cur with images := del.1 },
          cur := { sess.cur with images := del.1 } }, dl.1)) := by
  simp only [syncImagesInFolder, hpages, hc1, hc2, Bool.false_eq_true, if_false,
    Sess.commit]

/-- The scope's id set after a failure-free run equals the observed remote
id set (extensional membership equality). -/
lemma syncImages_final_scope_ids (env : SyncEnv) (folder_id : String) (pages : List Page)
    (sess : Sess) (fs : FS) (files : List DriveFile)
    (hpages : collectPages pages = .ok files)
    (hc1 : env.commitFail1 = false) (hc2 : env.commitFail2 = false) :
    ∀ x : String,
      x ∈ (((syncImagesInFolder env folder_id pages sess fs).2.1.cur.images.filter
          (inFolder folder_id)).map (fun i => i.id)) ↔
        x ∈ files.map (fun f => f.id) := by
  rw [syncImages_ok_unfold env folder_id pages sess fs files hpages hc1 hc2]
  simp only []
  intro x
  set dbIds := (sess.cur.images.filter (inFolder folder_id)).map (fun i => i.id) with hdbIds
  set toDel := dbIds.filter (fun i => !((files.map (fun f => f.id)).contains i)) with htoDel
  set up := imgUpsert env folder_id dbIds files sess.cur.images fs with hup
  have hpairs : up.1.map pairOf =
      sess.cur.images.map pairOf ++
        (files.filter (fun f => decide (f.id ∉ dbIds))).map (fun f => (f.id, some folder_id)) := by
    rw [hup, imgUpsert]
    exact imgUpsert_pairs env folder_id dbIds files sess.cur.images fs 0 0
  have htoDel_mem : ∀ y : String, y ∈ toDel ↔ y ∈ dbIds ∧ y ∉ files.map (fun f => f.id) := by
    intro y
    rw [htoDel, List.mem_filter]
    simp [List.elem_eq_mem]
  rw [imgDeleteLoop_images]
  constructor
  · intro hx
    obtain ⟨i, hi, hid⟩ := List.mem_map.mp hx
    obtain ⟨hi1, hfol⟩ := List.mem_filter.mp hi
    obtain ⟨hiu, hpred⟩ := List.mem_filter.mp hi1
    have hfol' : i.folder_id = some folder_id := by
      simpa [inFolder] using hfol
    have hnotdel : i.id ∉ toDel := by
      intro hcon
      simp [hcon, inFolder, hfol'] at hpred
    have hpair : (x, some folder_id) ∈ up.1.map pairOf := by
      refine List.mem_map.mpr ⟨i, hiu, ?_⟩
      simp [pairOf, hid, hfol']
    rw [hpairs, List.mem_append] at hpair
    rcases hpair with hleft | hright
    · have hxdb : x ∈ dbIds := (mem_scope_ids_iff folder_id x sess.cur.images).mpr hleft
      by_contra hxf
      exact hnotdel (by rw [hid]; exact (htoDel_mem x).mpr ⟨hxdb, hxf⟩)
    · obtain ⟨f, hf, hfx⟩ := List.mem_map.mp hright
      obtain ⟨hffiles, _⟩ := List.mem_filter.mp hf
      have : f.id = x := (Prod.mk.injEq _ _ _ _).mp hfx |>.1
      exact this ▸ List.mem_map_of_mem (fun f => f.id) hffiles
  · intro hx
    have hxnotdel : x ∉ toDel := by
      intro hcon
      exact ((htoDel_mem x).mp hcon).2 hx
    have hback : (x, some folder_id) ∈ up.1.map pairOf →
        x ∈ ((up.1.filter (fun y => !(decide (y.id ∈ toDel) && inFolder folder_id y))).filter
          (inFolder folder_id)).map (fun i => i.id) := by
      intro hpair
      obtain ⟨i, hiu, hpi⟩ := List.mem_map.mp hpair
      have hid : i.id = x := (Prod.mk.injEq _ _ _ _).mp (by simpa [pairOf] using hpi) |>.1
      have hfol : i.folder_id = some folder_id :=
        (Prod.mk.injEq _ _ _ _).mp (by simpa [pairOf] using hpi) |>.2
      refine List.mem_map.mpr ⟨i, ?_, hid⟩
      refine List.mem_filter.mpr ⟨List.mem_filter.mpr ⟨hiu, ?_⟩, by simp [inFolder, hfol]⟩
      simp [hid, hxnotdel, inFolder, hfol]
    by_cases hdb : x ∈ dbIds
    · exact hback (by rw [hpairs]
                      exact List.mem_append_left _
                        ((mem_scope_ids_iff folder_id x sess.cur.images).mp hdb))
    · obtain ⟨f, hffiles, hfx⟩ := List.mem_map.mp hx
      refine hback ?_
      rw [hpairs]
      refine List.mem_append_right _ (List.mem_map.mpr ⟨f, ?_, by rw [hfx]⟩)
      exact List.mem_filter.mpr ⟨hffiles, by simp [hfx, hdb]⟩

/-- C4: after a failure-free `sync_images_in_folder` run over a scope, the
run reports success, the session is fully committed, and the set of image
ids stored for that scope is exactly the set of ids observed in the
completed remote listing. -/
theorem claimC4_completeness (env : SyncEnv) (folder_id : String) (pages : List Page)
    (sess : Sess) (fs : FS) (files : List DriveFile)
    (hpages : collectPages pages = .ok files)
    (hc1 : env.commitFail1 = false) (hc2 : env.commitFail2 = false) :
    (syncImagesInFolder env folder_id pages sess fs).1.success = true ∧
    ((syncImagesInFolder env folder_id pages sess fs).2.1).clean ∧
    ∀ x : String,
      x ∈ (((syncImagesInFolder env folder_id pages sess fs).2.1.cur.images.filter
          (inFolder folder_id)).map (fun i => i.id)) ↔
        x ∈ files.map (fun f => f.id) := by
  refine ⟨?_, ?_, syncImages_final_scope_ids env folder_id pages sess fs files hpages hc1 hc2⟩
  · rw [syncImages_ok_unfold env folder_id pages sess fs files hpages hc1 hc2]
  · rw [syncImages_ok_unfold env folder_id pages sess fs files hpages hc1 hc2]
    rfl

/-- Witness for C4 at a concrete input: remote listing `{A}` against local
scope `{B}` — after the run the run succeeds, `A` is stored and `B` is
gone. -/
theorem claimC4_witness :
    let r := syncImagesInFolder
      { fromiso := fun _ => none, renameOk := fun _ _ => true,
        removeOk := fun _ => true, downloadOk := fun _ => true }
      "f1" [Except.ok [{ id := "A", name := "a.jpg" }]]
      { saved := { folders := [],
                   images := [{ id := "B", name := "b.jpg", folder_id := some "f1" }] },
        cur := { folders := [],
                 images := [{ id := "B", name := "b.jpg", folder_id := some "f1" }] } }
      ∅
    r.1.success = true ∧
    "A" ∈ ((r.2.1.cur.images.filter (inFolder "f1")).map (fun i => i.id)) ∧
    "B" ∉ ((r.2.1.cur.images.filter (inFolder "f1")).map (fun i => i.id)) := by
  have h := claimC4_completeness
    { fromiso := fun _ => none, renameOk := fun _ _ => true,
      removeOk := fun _ => true, downloadOk := fun _ => true }
    "f1" [Except.ok [{ id := "A", name := "a.jpg" }]]
    { saved := { folders := [],
                 images := [{ id := "B", name := "b.jpg", folder_id := some "f1" }] },
      cur := { folders := [],
               images := [{ id := "B", name := "b.jpg", folder_id := some "f1" }] } }
    ∅ [{ id := "A", name := "a.jpg" }] rfl rfl rfl
  refine ⟨h.1, (h.2.2 "A").mpr (by decide), fun hb => ?_⟩
  have := (h.2.2 "B").mp hb
  revert this
  decide

/-! ## C2: transactionality of the apply steps -/

/-- C2 (refutation at a concrete input): `sync_images_in_folder` commits
once mid-pass (line 348) and once at the end (line 402).  When the final
commit raises, the run reports failure — yet the row inserted in the first
half stays committed: the persisted state is not the pre-pass state, so
the pass is not one all-or-nothing transaction. -/
theorem claimC2_counterexample_midpass_commit :
    let env : SyncEnv :=
      { fromiso := fun _ => none, renameOk := fun _ _ => false,
        removeOk := fun _ => false, downloadOk := fun _ => false,
        commitFail1 := false, commitFail2 := true }
    let r := syncImagesInFolder env "f1" [Except.ok [{ id := "X", name := "x.jpg" }]]
      { saved := { folders := [], images := [] }, cur := { folders := [], images := [] } } ∅
    r.1.success = false ∧
    r.2.1.saved.images = [{ id := "X", name := "x.jpg", folder_id := some "f1" }] := by
  decide

/-- C2 as amended: the structure-level pass is one all-or-nothing
transaction — entered with a clean session, any failure leaves the session
exactly as it was and a success leaves it fully committed; the folder-level
pass of `sync_service` is two transactions — with the mid-pass commit
succeeding and the final commit failing, the run reports failure but the
insert-or-update phase's result stays persisted. -/
theorem claimC2_amended_transactions (envS : StructEnv)
    (rootLookup : Except String (List (String × String))) (structPages : List Page)
    (envI : SyncEnv) (folder_id : String) (pages : List Page)
    (sess sessI : Sess) (fs fsI : FS)
    (hclean : sess.clean) :
    ((syncFolderStructure envS rootLookup structPages sess fs).1.success = false →
       (syncFolderStructure envS rootLookup structPages sess fs).2.1 = sess) ∧
    ((syncFolderStructure envS rootLookup structPages sess fs).1.success = true →
       (syncFolderStructure envS rootLookup structPages sess fs).2.1.clean) ∧
    (∀ files : List DriveFile, collectPages pages = .ok files →
      envI.commitFail1 = false → envI.commitFail2 = true →
      (syncImagesInFolder envI folder_id pages sessI fsI).1.success = false ∧
      (syncImagesInFolder envI folder_id pages sessI fsI).2.1.saved.images =
        (imgUpsert envI folder_id
          ((sessI.cur.images.filter (inFolder folder_id)).map (fun i => i.id))
          files sessI.cur.images fsI).1) := by
  obtain ⟨sv, cu⟩ := sess
  have hc : cu = sv := hclean
  subst hc
  refine ⟨?_, ?_, ?_⟩
  · intro hfail
    simp only [syncFolderStructure] at hfail ⊢
    cases rootLookup with
    | error e => simp [Sess.rollback]
    | ok items =>
      by_cases hemp : items.isEmpty
      · simp [hemp]
      · simp only [hemp, if_false, Bool.false_eq_true] at hfail ⊢
        cases hpg : collectPages structPages with
        | error e => simp [hpg, Sess.rollback]
        | ok all_folders =>
          simp only [hpg] at hfail ⊢
          cases hcf : envS.commitFail with
          | true => simp [hcf, Sess.rollback]
          | false => simp [hcf] at hfail
  · intro hok
    simp only [syncFolderStructure] at hok ⊢
    cases rootLookup with
    | error e => simp at hok
    | ok items =>
      by_cases hemp : items.isEmpty
      · simp [hemp] at hok
      · simp only [hemp, if_false, Bool.false_eq_true] at hok ⊢
        cases hpg : collectPages structPages with
        | error e => simp [hpg] at hok
        | ok all_folders =>
          simp only [hpg] at hok ⊢
          cases hcf : envS.commitFail with
          | true => simp [hcf] at hok
          | false => simp [hcf, Sess.commit, Sess.clean]
  · intro files hpages hcf1 hcf2
    simp only [syncImagesInFolder, hpages, hcf1, hcf2, Bool.false_eq_true, if_false,
      if_true, Sess.commit, Sess.rollback, imgUpsert]
    exact ⟨trivial, trivial⟩

/-- Witness for C2's amended statement: a structure pass whose sub-folder
listing raises leaves the session untouched, and the concrete two-commit
folder pass of the counterexample persists its inserted row. -/
theorem claimC2_witness :
    (syncFolderStructure
        { fromiso := fun _ => none, removeOk := fun _ => false, commitFail := false }
        (Except.ok [("root", "RONIN_CMS")]) [Except.error "rate limit"]
        { saved := { folders := [{ id := "f1", name := "F1" }], images := [] },
          cur := { folders := [{ id := "f1", name := "F1" }], images := [] } }
        ∅).2.1 =
      { saved := { folders := [{ id := "f1", name := "F1" }], images := [] },
        cur := { folders := [{ id := "f1", name := "F1" }], images := [] } } ∧
    (syncImagesInFolder
        { fromiso := fun _ => none, renameOk := fun _ _ => false,
          removeOk := fun _ => false, downloadOk := fun _ => false,
          commitFail1 := false, commitFail2 := true }
        "f1" [Except.ok [{ id := "X", name := "x.jpg" }]]
        { saved := { folders := [], images := [] }, cur := { folders := [], images := [] } }
        ∅).1.success = false := by
  have h := claimC2_amended_transactions
    { fromiso := fun _ => none, removeOk := fun _ => false, commitFail := false }
    (Except.ok [("root", "RONIN_CMS")]) [Except.error "rate limit"]
    { fromiso := fun _ => none, renameOk := fun _ _ => false,
      removeOk := fun _ => false, downloadOk := fun _ => false,
      commitFail1 := false, commitFail2 := true }
    "f1" [Except.ok [{ id := "X", name := "x.jpg" }]]
    { saved := { folders := [{ id := "f1", name := "F1" }], images := [] },
      cur := { folders := [{ id := "f1", name := "F1" }], images := [] } }
    { saved := { folders := [], images := [] }, cur := { folders := [], images := [] } }
    ∅ ∅ rfl
  exact ⟨h.1 (by decide), (h.2.2 [{ id := "X", name := "x.jpg" }] rfl rfl rfl).1⟩

/-! ## C5: idempotence of a second run -/

lemma updateImage_noop (env : SyncEnv) (folder_id : String) (f : DriveFile)
    (img : Image) (fs : FS) (h : mirrors f img) :
    updateImage env folder_id f img fs = (img, fs, false) := by
  obtain ⟨hn, hm, ht, hc⟩ := h
  cases hct : truthy f.createdTime with
  | true =>
    have hcc : img.created_time ≠ none := hc hct
    simp [updateImage, ← hn, ← hm, ← ht, hct, hcc]
  | false =>
    simp [updateImage, ← hn, ← hm, ← ht, hct]

lemma map_update_eq_self (l : List Image) (folder_id x : String) (a : Image)
    (hnd : (l.map (fun i => i.id)).Nodup) (ha : a ∈ l)
    (hpa : isScopeRow folder_id x a = true) :
    l.map (fun i => if isScopeRow folder_id x i then a else i) = l := by
  conv_rhs => rw [← List.map_id l]
  apply List.map_congr_left
  intro b hb
  by_cases hpb : isScopeRow folder_id x b = true
  · have haa : a.id = x ∧ a.folder_id = some folder_id := by simpa [isScopeRow] using hpa
    have hbb : b.id = x ∧ b.folder_id = some folder_id := by simpa [isScopeRow] using hpb
    have hba : b = a :=
      List.inj_on_of_nodup_map hnd hb ha (by rw [haa.1, hbb.1])
    simp [hpb, hba]
  · simp [hpb]

lemma imgUpsert_noop (env : SyncEnv) (folder_id : String) (dbIds : List String)
    (imgs : List Image) (fs : FS)
    (hnd : (imgs.map (fun i => i.id)).Nodup) :
    ∀ (files : List DriveFile),
      (∀ f ∈ files, f.id ∈ dbIds) →
      (∀ f ∈ files, ∃ i ∈ imgs, isScopeRow folder_id f.id i = true) →
      (∀ f ∈ files, ∀ i ∈ imgs, isScopeRow folder_id f.id i = true → mirrors f i) →
      ∀ (s u : Nat),
        files.foldl (upsertStep env folder_id dbIds) (imgs, fs, s, u) = (imgs, fs, s, u) := by
  intro files
  induction files with
  | nil => intro _ _ _ s u; rfl
  | cons f rest ih =>
    intro hmem hex hmir s u
    rw [List.foldl_cons]
    have hstep : upsertStep env folder_id dbIds (imgs, fs, s, u) f = (imgs, fs, s, u) := by
      obtain ⟨i0, hi0, hp0⟩ := hex f (by simp)
      cases hfd : imgs.find? (isScopeRow folder_id f.id) with
      | none => exact absurd hp0 (by simpa using List.find?_eq_none.mp hfd i0 hi0)
      | some j =>
        have hj : j ∈ imgs := List.mem_of_find?_eq_some hfd
        have hpj : isScopeRow folder_id f.id j = true := List.find?_some hfd
        have hupd := updateImage_noop env folder_id f j fs (hmir f (by simp) j hj hpj)
        have hmemf : f.id ∈ dbIds := hmem f (by simp)
        simp [upsertStep, hmemf, hfd, hupd, map_update_eq_self imgs folder_id f.id j hnd hj hpj]
    rw [hstep]
    exact ih (fun g hg => hmem g (by simp [hg])) (fun g hg => hex g (by simp [hg]))
      (fun g hg => hmir g (by simp [hg])) s u

/-- C5 as amended: a failure-free run over a scope whose local rows already
mirror the remote listing — equal ids, and fieldwise-mirroring rows (the
state a successful first run leaves when every supplied `createdTime`
parses and no cached-file rename was blocked) — performs and reports zero
inserts, zero updates and zero deletes, and leaves the session exactly as
it was. -/
theorem claimC5_amended_idempotence (env : SyncEnv) (folder_id : String)
    (pages : List Page) (sess : Sess) (fs : FS) (files : List DriveFile)
    (hpages : collectPages pages = .ok files)
    (hc1 : env.commitFail1 = false) (hc2 : env.commitFail2 = false)
    (hclean : sess.clean)
    (hnd : (sess.cur.images.map (fun i => i.id)).Nodup)
    (hex : ∀ f ∈ files, ∃ i ∈ sess.cur.images, isScopeRow folder_id f.id i = true)
    (hmir : ∀ f ∈ files, ∀ i ∈ sess.cur.images, isScopeRow folder_id f.id i = true → mirrors f i)
    (hcov : ∀ i ∈ sess.cur.images, inFolder folder_id i = true →
      i.id ∈ files.map (fun f => f.id)) :
    (syncImagesInFolder env folder_id pages sess fs).1.new_db_records = 0 ∧
    (syncImagesInFolder env folder_id pages sess fs).1.updated_db_records = 0 ∧
    (syncImagesInFolder env folder_id pages sess fs).1.deleted_db_records = 0 ∧
    (syncImagesInFolder env folder_id pages sess fs).2.1 = sess := by
  rw [syncImages_ok_unfold env folder_id pages sess fs files hpages hc1 hc2]
  simp only []
  have hmem : ∀ f ∈ files, f.id ∈ (sess.cur.images.filter (inFolder folder_id)).map
      (fun i => i.id) := by
    intro f hf
    obtain ⟨i, hi, hp⟩ := hex f hf
    have hpp : i.id = f.id ∧ i.folder_id = some folder_id := by simpa [isScopeRow] using hp
    exact List.mem_map.mpr ⟨i, List.mem_filter.mpr ⟨hi, by simp [inFolder, hpp.2]⟩, hpp.1⟩
  have hup : imgUpsert env folder_id
      ((sess.cur.images.filter (inFolder folder_id)).map (fun i => i.id)) files
      sess.cur.images fs = (sess.cur.images, fs, 0, 0) := by
    rw [imgUpsert]
    exact imgUpsert_noop env folder_id _ sess.cur.images fs hnd files hmem hex hmir 0 0
  rw [hup]
  have htd : ((sess.cur.images.filter (inFolder folder_id)).map (fun i => i.id)).filter
      (fun i => !((files.map (fun f => f.id)).contains i)) = [] := by
    rw [List.filter_eq_nil_iff]
    intro x hx
    obtain ⟨i, hi, hix⟩ := List.mem_map.mp hx
    obtain ⟨hin, hfol⟩ := List.mem_filter.mp hi
    have := hcov i hin hfol
    simp [List.elem_eq_mem, hix ▸ this]
  rw [htd]
  simp only [imgDeleteLoop]
  obtain ⟨sv, cu⟩ := sess
  have hc : cu = sv := hclean
  subst hc
  simp

/-- C5 (refutation at a concrete input): a remote file whose
`createdTime` does not parse is inserted with an empty creation time, and
the *second* run over the unchanged remote listing re-reports one update
(the guard `not db_img.created_time and f.get("createdTime")` fires on
every run), even though the stored state does not change — the second run
does not report zero updates. -/
theorem claimC5_counterexample_reupdate :
    let env : SyncEnv :=
      { fromiso := fun _ => none, renameOk := fun _ _ => false,
        removeOk := fun _ => false, downloadOk := fun _ => false }
    let pages : List Page :=
      [Except.ok [{ id := "X", name := "x.jpg", createdTime := some "garbage" }]]
    let s0 : Sess := { saved := { folders := [], images := [] },
                       cur := { folders := [], images := [] } }
    let r1 := syncImagesInFolder env "f1" pages s0 ∅
    let r2 := syncImagesInFolder env "f1" pages r1.2.1 r1.2.2
    r1.1.success = true ∧ r1.1.new_db_records = 1 ∧
    r2.1.success = true ∧ r2.1.updated_db_records = 1 ∧ r2.2.1 = r1.2.1 := by
  decide

/-- Witness for C5's amended statement at a concrete mirrored state. -/
theorem claimC5_witness :
    (syncImagesInFolder
        { fromiso := fun _ => some "2024-09-15", renameOk := fun _ _ => false,
          removeOk := fun _ => false, downloadOk := fun _ => false }
        "f1" [Except.ok [{ id := "X", name := "x.jpg" }]]
        { saved := { folders := [],
                     images := [{ id := "X", name := "x.jpg", folder_id := some "f1" }] },
          cur := { folders := [],
                   images := [{ id := "X", name := "x.jpg", folder_id := some "f1" }] } }
        ∅).1.updated_db_records = 0 ∧
    (syncImagesInFolder
        { fromiso := fun _ => some "2024-09-15", renameOk := fun _ _ => false,
          removeOk := fun _ => false, downloadOk := fun _ => false }
        "f1" [Except.ok [{ id := "X", name := "x.jpg" }]]
        { saved := { folders := [],
                     images := [{ id := "X", name := "x.jpg", folder_id := some "f1" }] },
          cur := { folders := [],
                   images := [{ id := "X", name := "x.jpg", folder_id := some "f1" }] } }
        ∅).2.1 =
      { saved := { folders := [],
                   images := [{ id := "X", name := "x.jpg", folder_id := some "f1" }] },
        cur := { folders := [],
                 images := [{ id := "X", name := "x.jpg", folder_id := some "f1" }] } } := by
  have h := claimC5_amended_idempotence
    { fromiso := fun _ => some "2024-09-15", renameOk := fun _ _ => false,
      removeOk := fun _ => false, downloadOk := fun _ => false }
    "f1" [Except.ok [{ id := "X", name := "x.jpg" }]]
    { saved := { folders := [],
                 images := [{ id := "X", name := "x.jpg", folder_id := some "f1" }] },
      cur := { folders := [],
               images := [{ id := "X", name := "x.jpg", folder_id := some "f1" }] } }
    ∅ [{ id := "X", name := "x.jpg" }] rfl rfl rfl rfl
    (by decide) (by decide) (by decide) (by decide)
  exact ⟨h.2.1, h.2.2.2⟩

/-! ## C8: rename handling -/

/-- C8 (refutation at a concrete input): remote item `X` renamed from
`a.jpg` to `b.jpg`, with cached files existing under *both* names: the
rename of the cached file is not attempted (the target exists), the old
file still exists, so the new name is not committed — after a successful
sync the local row for `X` still carries `a.jpg`, contradicting the
claim's unconditional "the local row for X carries the new name". -/
theorem claimC8_counterexample_blocked_rename :
    let env : SyncEnv :=
      { fromiso := fun _ => none, renameOk := fun _ _ => true,
        removeOk := fun _ => true, downloadOk := fun _ => false }
    let r := syncImagesInFolder env "f1"
      [Except.ok [{ id := "X", name := "b.jpg" }]]
      { saved := { folders := [],
                   images := [{ id := "X", name := "a.jpg", folder_id := some "f1" }] },
        cur := { folders := [],
                 images := [{ id := "X", name := "a.jpg", folder_id := some "f1" }] } }
      ({("f1", "a.jpg"), ("f1", "b.jpg")} : Finset (String × String))
    r.1.success = true ∧
    r.2.1.cur.images = [{ id := "X", name := "a.jpg", folder_id := some "f1" }] := by
  decide

/-- C8 as amended: (update step) when the Drive name changed, the row's
name becomes the new name exactly when the cached-file rename was possible
and succeeded or no cached file exists under the old name — otherwise the
old name is kept — and the row's id never changes; (whole pass) after a
failure-free run whose listing contains an entry for id `X`, the image
table holds pairwise-distinct ids and exactly one row for `X`, owned by the
synced folder: no duplicate row is ever created. -/
theorem claimC8_amended_rename_safety (env : SyncEnv) (folder_id : String)
    (f : DriveFile) (img : Image) (fs : FS)
    (pages : List Page) (sess : Sess) (fsp : FS) (files : List DriveFile) (f0 : DriveFile)
    (hne : img.name ≠ f.name)
    (hpages : collectPages pages = .ok files)
    (hc1 : env.commitFail1 = false) (hc2 : env.commitFail2 = false)
    (hnd : (sess.cur.images.map (fun i => i.id)).Nodup)
    (hfnd : (files.map (fun f => f.id)).Nodup)
    (hdisj : ∀ g ∈ files, ∀ i ∈ sess.cur.images, i.id = g.id →
      i.folder_id = some folder_id)
    (hf0 : f0 ∈ files) :
    ((updateImage env folder_id f img fs).1.name =
      (if ((folder_id, img.name) ∈ fs ∧ (folder_id, f.name) ∉ fs ∧
            env.renameOk img.name f.name = true) ∨ (folder_id, img.name) ∉ fs
       then f.name else img.name) ∧
     (updateImage env folder_id f img fs).1.id = img.id) ∧
    (((syncImagesInFolder env folder_id pages sess fsp).2.1.cur.images.map
        (fun i => i.id)).Nodup ∧
     ∃ i ∈ (syncImagesInFolder env folder_id pages sess fsp).2.1.cur.images,
       i.id = f0.id ∧ i.folder_id = some folder_id) := by
  constructor
  · constructor
    · by_cases ho : (folder_id, img.name) ∈ fs
      · by_cases hn2 : (folder_id, f.name) ∈ fs
        · simp [updateImage, hne, ho, hn2]
        · cases hr : env.renameOk img.name f.name with
          | false => simp [updateImage, hne, ho, hn2, hr]
          | true => simp [updateImage, hne, ho, hn2, hr]
      · simp [updateImage, hne, ho]
    · rfl
  · have hmem := syncImages_final_scope_ids env folder_id pages sess fsp files hpages hc1 hc2
    rw [syncImages_ok_unfold env folder_id pages sess fsp files hpages hc1 hc2]
    rw [syncImages_ok_unfold env folder_id pages sess fsp files hpages hc1 hc2] at hmem
    simp only [] at hmem ⊢
    set dbIds := (sess.cur.images.filter (inFolder folder_id)).map (fun i => i.id) with hdbIds
    set toDel := dbIds.filter (fun i => !((files.map (fun f => f.id)).contains i)) with htoDel
    set up := imgUpsert env folder_id dbIds files sess.cur.images fsp with hup
    have hids : up.1.map (fun i => i.id) =
        sess.cur.images.map (fun i => i.id) ++
          ((files.filter (fun g => decide (g.id ∉ dbIds))).map (fun g => g.id)) := by
      have hpairs : up.1.map pairOf =
          sess.cur.images.map pairOf ++
            (files.filter (fun g => decide (g.id ∉ dbIds))).map
              (fun g => (g.id, some folder_id)) := by
        rw [hup, imgUpsert]
        exact imgUpsert_pairs env folder_id dbIds files sess.cur.images fsp 0 0
      have h1 : up.1.map (fun i => i.id) = (up.1.map pairOf).map Prod.fst := by
        rw [List.map_map]
        rfl
      rw [h1, hpairs]
      simp [List.map_map]
      rfl
    have hndup : (up.1.map (fun i => i.id)).Nodup := by
      rw [hids]
      refine List.Nodup.append hnd ?_ ?_
      · exact ((List.filter_sublist files).map (fun g => g.id)).nodup hfnd
      · intro x hx1 hx2
        obtain ⟨g, hg, hgx⟩ := List.mem_map.mp hx2
        obtain ⟨hgf, hgnot⟩ := List.mem_filter.mp hg
        obtain ⟨i, hi, hix⟩ := List.mem_map.mp hx1
        have hscope : i.folder_id = some folder_id :=
          hdisj g hgf i hi (by rw [hix, ← hgx])
        have : g.id ∈ dbIds := by
          rw [hdbIds]
          exact List.mem_map.mpr ⟨i, List.mem_filter.mpr ⟨hi, by simp [inFolder, hscope]⟩,
            hix.trans hgx.symm⟩
        simp [this] at hgnot
    rw [imgDeleteLoop_images] at hmem ⊢
    constructor
    · exact ((List.filter_sublist up.1).map (fun i => i.id)).nodup hndup
    · have hx : f0.id ∈ ((up.1.filter
          (fun y => !(decide (y.id ∈ toDel) && inFolder folder_id y))).filter
            (inFolder folder_id)).map (fun i => i.id) :=
        (hmem f0.id).mpr (List.mem_map_of_mem (fun f => f.id) hf0)
      obtain ⟨i, hi, hid⟩ := List.mem_map.mp hx
      obtain ⟨hi1, hfol⟩ := List.mem_filter.mp hi
      exact ⟨i, hi1, hid, by simpa [inFolder] using hfol⟩

/-- Witness for C8 at concrete inputs: with no cached file under the old
name the update step adopts the new name, and a pass over listing `{X}`
with a stale-named local row yields exactly one row for `X`. -/
theorem claimC8_witness :
    (updateImage
        { fromiso := fun _ => none, renameOk := fun _ _ => true,
          removeOk := fun _ => true, downloadOk := fun _ => false }
        "f1" { id := "X", name := "b.jpg" }
        { id := "X", name := "a.jpg", folder_id := some "f1" } ∅).1.name = "b.jpg" ∧
    ∃ i ∈ (syncImagesInFolder
        { fromiso := fun _ => none, renameOk := fun _ _ => true,
          removeOk := fun _ => true, downloadOk := fun _ => false }
        "f1" [Except.ok [{ id := "X", name := "b.jpg" }]]
        { saved := { folders := [],
                     images := [{ id := "X", name := "a.jpg", folder_id := some "f1" }] },
          cur := { folders := [],
                   images := [{ id := "X", name := "a.jpg", folder_id := some "f1" }] } }
        ∅).2.1.cur.images, i.id = "X" ∧ i.folder_id = some "f1" := by
  have h := claimC8_amended_rename_safety
    { fromiso := fun _ => none, renameOk := fun _ _ => true,
      removeOk := fun _ => true, downloadOk := fun _ => false }
    "f1" { id := "X", name := "b.jpg" }
    { id := "X", name := "a.jpg", folder_id := some "f1" } ∅
    [Except.ok [{ id := "X", name := "b.jpg" }]]
    { saved := { folders := [],
                 images := [{ id := "X", name := "a.jpg", folder_id := some "f1" }] },
      cur := { folders := [],
               images := [{ id := "X", name := "a.jpg", folder_id := some "f1" }] } }
    ∅ [{ id := "X", name := "b.jpg" }] { id := "X", name := "b.jpg" }
    (by decide) rfl rfl rfl (by decide) (by decide) (by decide) (by decide)
  refine ⟨?_, h.2.2⟩
  rw [h.1.1]
  simp

/-! ## C6: cascade deletion order and referential integrity -/

lemma noOrphans_iff (db : DB) :
    noOrphans db = true ↔
      ∀ i ∈ db.images, ∀ fi : String, i.folder_id = some fi →
        ∃ fo ∈ db.folders, fo.id = fi := by
  rw [noOrphans, List.all_eq_true]
  constructor
  · intro h i hi fi hfi
    have := h i hi
    rw [hfi] at this
    simpa [List.any_eq_true] using this
  · intro h i hi
    cases hfi : i.folder_id with
    | none => simp
    | some fi =>
      simpa [List.any_eq_true] using h i hi fi hfi

lemma folderDeleteLoop_img_ops (env : StructEnv) :
    ∀ (toDel : List String) (db : DB) (fs : FS) (i : Image),
      DelOp.img i ∈ (folderDeleteLoop env toDel db fs).2.2.2 → i ∈ db.images := by
  intro toDel
  induction toDel with
  | nil => intro db fs i h; simp [folderDeleteLoop] at h
  | cons fid rest ih =>
    intro db fs i h
    rw [folderDeleteLoop] at h
    cases hfind : db.folders.find? (isFolderRow fid) with
    | none =>
      rw [hfind] at h
      exact ih db fs i h
    | some fr =>
      rw [hfind] at h
      simp only [List.mem_append, List.mem_cons, List.mem_map] at h
      rcases h with ((⟨j, hj, hji⟩ | hfld) | hrest)
      · cases hji
        exact List.mem_of_mem_filter hj
      · rcases hfld with hfld | hfld
        · exact absurd hfld (by simp)
        · simp at hfld
      · have := ih _ _ i hrest
        exact List.mem_of_mem_filter this

lemma folderDeleteLoop_fld_ops (env : StructEnv) :
    ∀ (toDel : List String) (db : DB) (fs : FS) (f : Folder),
      DelOp.fld f ∈ (folderDeleteLoop env toDel db fs).2.2.2 → f ∈ db.folders := by
  intro toDel
  induction toDel with
  | nil => intro db fs f h; simp [folderDeleteLoop] at h
  | cons fid rest ih =>
    intro db fs f h
    rw [folderDeleteLoop] at h
    cases hfind : db.folders.find? (isFolderRow fid) with
    | none =>
      rw [hfind] at h
      exact ih db fs f h
    | some fr =>
      rw [hfind] at h
      simp only [List.mem_append, List.mem_cons, List.mem_map] at h
      rcases h with ((⟨j, _, hji⟩ | hfld) | hrest)
      · exact absurd hji (by simp)
      · rcases hfld with hfld | hfld
        · cases hfld
          exact List.mem_of_find?_eq_some hfind
        · simp at hfld
      · have := ih _ _ f hrest
        exact List.mem_of_mem_filter this

lemma order_block_append (imgsIn : List Image) (fr : Folder) (R : List DelOp) (fid : String)
    (hImgsFid : ∀ i ∈ imgsIn, i.folder_id = some fid)
    (hfr : fr.id = fid)
    (hImgR : ∀ i : Image, DelOp.img i ∈ R → i.folder_id ≠ some fid)
    (hFldR : ∀ f : Folder, DelOp.fld f ∈ R → f.id ≠ fid)
    (hR : eachFolderImagesFirst R) :
    eachFolderImagesFirst ((imgsIn.map DelOp.img ++ [DelOp.fld fr]) ++ R) := by
  intro j k f i hj hk hfi
  have hBlen : (imgsIn.map DelOp.img ++ [DelOp.fld fr]).length = imgsIn.length + 1 := by
    simp
  by_cases hjB : j < (imgsIn.map DelOp.img ++ [DelOp.fld fr]).length
  · rw [List.getElem?_append_left hjB] at hj
    by_cases hjm : j < imgsIn.length
    · rw [List.getElem?_append_left (by simpa using hjm), List.getElem?_map] at hj
      cases hgot : imgsIn[j]? with
      | none => rw [hgot] at hj; simp at hj
      | some a => rw [hgot] at hj; simp at hj
    · have hje : j = imgsIn.length := by omega
      subst hje
      rw [List.getElem?_append_right (by simp)] at hj
      simp only [List.length_map, Nat.sub_self, List.getElem?_cons_zero,
        Option.some.injEq] at hj
      have hffr : f = fr := by
        cases hj
        rfl
      by_cases hkB : k < (imgsIn.map DelOp.img ++ [DelOp.fld fr]).length
      · rw [List.getElem?_append_left hkB] at hk
        by_cases hkm : k < imgsIn.length
        · omega
        · have hke : k = imgsIn.length := by omega
          subst hke
          rw [List.getElem?_append_right (by simp)] at hk
          simp at hk
      · push_neg at hkB
        rw [List.getElem?_append_right hkB] at hk
        have hmem : DelOp.img i ∈ R := List.getElem?_mem hk
        have hne := hImgR i hmem
        rw [hfi, hffr, hfr] at hne
        exact absurd rfl hne
  · push_neg at hjB
    rw [List.getElem?_append_right hjB] at hj
    have hfmem : DelOp.fld f ∈ R := List.getElem?_mem hj
    have hfneq : f.id ≠ fid := hFldR f hfmem
    by_cases hkB : k < (imgsIn.map DelOp.img ++ [DelOp.fld fr]).length
    · rw [List.getElem?_append_left hkB] at hk
      by_cases hkm : k < imgsIn.length
      · rw [List.getElem?_append_left (by simpa using hkm), List.getElem?_map] at hk
        cases hgot : imgsIn[k]? with
        | none => rw [hgot] at hk; simp at hk
        | some a =>
          rw [hgot] at hk
          have hai : a = i := by simpa using hk
          have hmemi : i ∈ imgsIn := hai ▸ List.getElem?_mem hgot
          have := hImgsFid i hmemi
          rw [hfi] at this
          exact absurd (by injection this) hfneq
      · have hke : k = imgsIn.length := by omega
        subst hke
        rw [List.getElem?_append_right (by simp)] at hk
        simp at hk
    · push_neg at hkB
      rw [List.getElem?_append_right hkB] at hk
      have := hR (j - (imgsIn.map DelOp.img ++ [DelOp.fld fr]).length)
        (k - (imgsIn.map DelOp.img ++ [DelOp.fld fr]).length) f i hj hk hfi
      omega

lemma folderDeleteLoop_order (env : StructEnv) :
    ∀ (toDel : List String) (db : DB) (fs : FS),
      eachFolderImagesFirst (folderDeleteLoop env toDel db fs).2.2.2 := by
  intro toDel
  induction toDel with
  | nil =>
    intro db fs j k f i hj
    simp [folderDeleteLoop] at hj
  | cons fid rest ih =>
    intro db fs
    rw [folderDeleteLoop]
    cases hfind : db.folders.find? (isFolderRow fid) with
    | none => exact ih db fs
    | some fr =>
      simp only []
      refine order_block_append _ fr _ fid ?_ ?_ ?_ ?_ (ih _ _)
      · intro i hi
        have := List.mem_filter.mp hi
        simpa [inFolder] using this.2
      · simpa [isFolderRow] using List.find?_some hfind
      · intro i hi
        have hmem := folderDeleteLoop_img_ops env rest _ _ i hi
        have := (List.mem_filter.mp hmem).2
        simpa [inFolder] using this
      · intro f hf
        have hmem := folderDeleteLoop_fld_ops env rest _ _ f hf
        have := (List.mem_filter.mp hmem).2
        simpa [isFolderRow] using this

lemma folderUpsert_keeps_folder_ids (env : StructEnv) (dbIds : List String) :
    ∀ (files : List DriveFile) (fl : List Folder) (n u : Nat) (x : String),
      (∃ fo ∈ fl, fo.id = x) →
      ∃ fo' ∈ (files.foldl (folderUpsertStep env dbIds) (fl, n, u)).1, fo'.id = x := by
  intro files
  induction files with
  | nil => intro fl n u x h; exact h
  | cons f rest ih =>
    intro fl n u x h
    rw [List.foldl_cons]
    by_cases hmem : f.id ∈ dbIds
    · cases hfind : fl.find? (isFolderRow f.id) with
      | none =>
        have hstep : folderUpsertStep env dbIds (fl, n, u) f = (fl, n, u) := by
          simp [folderUpsertStep, hmem, hfind]
        rw [hstep]
        exact ih fl n u x h
      | some fr =>
        by_cases hname : fr.name = f.name
        · have hstep : folderUpsertStep env dbIds (fl, n, u) f = (fl, n, u) := by
            simp [folderUpsertStep, hmem, hfind, hname]
          rw [hstep]
          exact ih fl n u x h
        · have hstep : folderUpsertStep env dbIds (fl, n, u) f =
              (fl.map (fun y => if isFolderRow f.id y then { y with name := f.name } else y),
               n, u + 1) := by
            simp [folderUpsertStep, hmem, hfind, hname]
          rw [hstep]
          apply ih
          obtain ⟨fo, hfo, hid⟩ := h
          refine ⟨if isFolderRow f.id fo then { fo with name := f.name } else fo,
            List.mem_map_of_mem _ hfo, ?_⟩
          by_cases hp : isFolderRow f.id fo = true
          · simp [hp, hid]
          · simp [hp, hid]
    · have hstep : folderUpsertStep env dbIds (fl, n, u) f =
          (fl ++ [{ id := f.id, name := f.name,
                    created_time := parse_drive_datetime env.fromiso f.createdTime }],
           n + 1, u) := by
        simp [folderUpsertStep, hmem]
      rw [hstep]
      apply ih
      obtain ⟨fo, hfo, hid⟩ := h
      exact ⟨fo, List.mem_append_left _ hfo, hid⟩

lemma folderDeleteLoop_noOrphans (env : StructEnv) :
    ∀ (toDel : List String) (db : DB) (fs : FS),
      noOrphans db = true → noOrphans (folderDeleteLoop env toDel db fs).1 = true := by
  intro toDel
  induction toDel with
  | nil => intro db fs h; simpa [folderDeleteLoop] using h
  | cons fid rest ih =>
    intro db fs h
    rw [folderDeleteLoop]
    cases hfind : db.folders.find? (isFolderRow fid) with
    | none => exact ih db fs h
    | some fr =>
      simp only []
      apply ih
      rw [noOrphans_iff] at h ⊢
      intro i hi fi hfi
      have hi' := List.mem_filter.mp hi
      obtain ⟨fo, hfo, hfoid⟩ := h i hi'.1 fi hfi
      refine ⟨fo, List.mem_filter.mpr ⟨hfo, ?_⟩, hfoid⟩
      have hne : ¬ fi = fid := by
        have := hi'.2
        simp only [inFolder, hfi, Bool.not_eq_eq_eq_not, Bool.not_true] at this
        simpa using this
      simp [isFolderRow, hfoid, hne]

/-- C6 (refutation): with two folders to delete, each holding one image,
the deletion trace interleaves per folder — `F1`'s folder row is deleted
before `F2`'s image row — so it is not the case that every image delete of
the marked set precedes every folder delete. -/
theorem claimC6_counterexample_interleaved :
    (syncFolderStructure { fromiso := fun _ => none, removeOk := fun _ => false }
        (Except.ok [("root", "RONIN_CMS")]) [Except.ok []]
        { saved := { folders := [{ id := "f1", name := "F1" }, { id := "f2", name := "F2" }],
                     images := [{ id := "i1", name := "a.jpg", folder_id := some "f1" },
                                { id := "i2", name := "b.jpg", folder_id := some "f2" }] },
          cur := { folders := [{ id := "f1", name := "F1" }, { id := "f2", name := "F2" }],
                   images := [{ id := "i1", name := "a.jpg", folder_id := some "f1" },
                              { id := "i2", name := "b.jpg", folder_id := some "f2" }] } }
        ∅).2.2.2 =
      [DelOp.img { id := "i1", name := "a.jpg", folder_id := some "f1" },
       DelOp.fld { id := "f1", name := "F1" },
       DelOp.img { id := "i2", name := "b.jpg", folder_id := some "f2" },
       DelOp.fld { id := "f2", name := "F2" }] ∧
    ¬ allImgOpsFirst
      [DelOp.img { id := "i1", name := "a.jpg", folder_id := some "f1" },
       DelOp.fld { id := "f1", name := "F1" },
       DelOp.img { id := "i2", name := "b.jpg", folder_id := some "f2" },
       DelOp.fld { id := "f2", name := "F2" }] := by
  constructor
  · decide
  · intro h
    have := h 1 2 { id := "f1", name := "F1" }
      { id := "i2", name := "b.jpg", folder_id := some "f2" } rfl rfl
    omega

/-- C6 as amended: deletion proceeds folder by folder — in the trace of
`session.delete` calls, every image row owned by a deleted folder is
deleted before that folder's own row (but not before earlier folders'
rows); consequently, a completed run started on a database with no orphan
image rows ends with no orphan image rows. -/
theorem claimC6_amended_cascade (env : StructEnv)
    (rootLookup : Except String (List (String × String))) (pages : List Page)
    (sess : Sess) (fs : FS)
    (hno : noOrphans sess.cur = true) :
    eachFolderImagesFirst (syncFolderStructure env rootLookup pages sess fs).2.2.2 ∧
    ((syncFolderStructure env rootLookup pages sess fs).1.success = true →
      noOrphans (syncFolderStructure env rootLookup pages sess fs).2.1.cur = true) := by
  rw [syncFolderStructure.eq_def]
  cases rootLookup with
  | error e =>
    constructor
    · intro j k f i hj
      simp at hj
    · intro hcon
      simp at hcon
  | ok items =>
    by_cases hemp : items.isEmpty
    · simp only [hemp, if_true]
      constructor
      · intro j k f i hj
        simp at hj
      · intro hcon
        simp at hcon
    · simp only [hemp, Bool.false_eq_true, if_false]
      cases hpg : collectPages pages with
      | error e =>
        constructor
        · intro j k f i hj
          simp at hj
        · intro hcon
          simp at hcon
      | ok all_folders =>
        simp only []
        have hord := folderDeleteLoop_order env
          ((sess.cur.folders.map (fun fo => fo.id)).filter
            (fun i => !((all_folders.map (fun f => f.id)).contains i)))
          { folders := (folderUpsert env (sess.cur.folders.map (fun fo => fo.id))
              all_folders sess.cur.folders).1,
            images := sess.cur.images }
          fs
        have hnoDel := folderDeleteLoop_noOrphans env
          ((sess.cur.folders.map (fun fo => fo.id)).filter
            (fun i => !((all_folders.map (fun f => f.id)).contains i)))
          { folders := (folderUpsert env (sess.cur.folders.map (fun fo => fo.id))
              all_folders sess.cur.folders).1,
            images := sess.cur.images }
          fs
          (by
            rw [noOrphans_iff] at hno ⊢
            intro i hi fi hfi
            have := hno i hi fi hfi
            rw [folderUpsert]
            exact folderUpsert_keeps_folder_ids env _ all_folders sess.cur.folders 0 0 fi this)
        cases hcf : env.commitFail with
        | true =>
          simp only [hcf, if_true]
          constructor
          · exact hord
          · intro hcon
            simp at hcon
        | false =>
          simp only [hcf, Bool.false_eq_true, if_false]
          exact ⟨hord, fun _ => hnoDel⟩

/-- Witness for C6's amended statement: concrete run deleting two folders
with images; the trace keeps each folder's image before its folder row and
the result keeps referential integrity. -/
theorem claimC6_witness :
    eachFolderImagesFirst
      (syncFolderStructure { fromiso := fun _ => none, removeOk := fun _ => false }
        (Except.ok [("root", "RONIN_CMS")]) [Except.ok []]
        { saved := { folders := [{ id := "f1", name := "F1" }, { id := "f2", name := "F2" }],
                     images := [{ id := "i1", name := "a.jpg", folder_id := some "f1" },
                                { id := "i2", name := "b.jpg", folder_id := some "f2" }] },
          cur := { folders := [{ id := "f1", name := "F1" }, { id := "f2", name := "F2" }],
                   images := [{ id := "i1", name := "a.jpg", folder_id := some "f1" },
                              { id := "i2", name := "b.jpg", folder_id := some "f2" }] } }
        ∅).2.2.2 ∧
    noOrphans
      (syncFolderStructure { fromiso := fun _ => none, removeOk := fun _ => false }
        (Except.ok [("root", "RONIN_CMS")]) [Except.ok []]
        { saved := { folders := [{ id := "f1", name := "F1" }, { id := "f2", name := "F2" }],
                     images := [{ id := "i1", name := "a.jpg", folder_id := some "f1" },
                                { id := "i2", name := "b.jpg", folder_id := some "f2" }] },
          cur := { folders := [{ id := "f1", name := "F1" }, { id := "f2", name := "F2" }],
                   images := [{ id := "i1", name := "a.jpg", folder_id := some "f1" },
                              { id := "i2", name := "b.jpg", folder_id := some "f2" }] } }
        ∅).2.1.cur = true := by
  have h := claimC6_amended_cascade { fromiso := fun _ => none, removeOk := fun _ => false }
    (Except.ok [("root", "RONIN_CMS")]) [Except.ok []]
    { saved := { folders := [{ id := "f1", name := "F1" }, { id := "f2", name := "F2" }],
                 images := [{ id := "i1", name := "a.jpg", folder_id := some "f1" },
                            { id := "i2", name := "b.jpg", folder_id := some "f2" }] },
      cur := { folders := [{ id := "f1", name := "F1" }, { id := "f2", name := "F2" }],
               images := [{ id := "i1", name := "a.jpg", folder_id := some "f1" },
                          { id := "i2", name := "b.jpg", folder_id := some "f2" }] } }
    ∅ (by decide)
  exact ⟨h.1, h.2 (by decide)⟩

/-! ## C9: orchestration — structure halt and per-folder isolation -/

lemma syncFolderStructure_fail_state (env : StructEnv)
    (rootLookup : Except String (List (String × String))) (pages : List Page)
    (sess : Sess) (fs : FS) (hclean : sess.clean)
    (hfail : (syncFolderStructure env rootLookup pages sess fs).1.success = false) :
    (syncFolderStructure env rootLookup pages sess fs).2.1 = sess := by
  obtain ⟨sv, cu⟩ := sess
  have hc : cu = sv := hclean
  subst hc
  simp only [syncFolderStructure] at hfail ⊢
  cases rootLookup with
  | error e => simp [Sess.rollback]
  | ok items =>
    by_cases hemp : items.isEmpty
    · simp [hemp]
    · simp only [hemp, Bool.false_eq_true, if_false] at hfail ⊢
      cases hpg : collectPages pages with
      | error e => simp [hpg, Sess.rollback]
      | ok all_folders =>
        simp only [hpg] at hfail ⊢
        cases hcf : env.commitFail with
        | true => simp [hcf, Sess.rollback]
        | false => simp [hcf] at hfail

lemma syncImages_result_folder_id (env : SyncEnv) (folder_id : String)
    (pages : List Page) (sess : Sess) (fs : FS) :
    (syncImagesInFolder env folder_id pages sess fs).1.folder_id = folder_id := by
  cases h : collectPages pages with
  | error e => simp [syncImagesInFolder, h]
  | ok files =>
    by_cases h1 : env.commitFail1 <;> by_cases h2 : env.commitFail2 <;>
      simp [syncImagesInFolder, h, h1, h2]

lemma syncImages_listing_error (env : SyncEnv) (folder_id : String)
    (pages : List Page) (sess : Sess) (fs : FS) (e : String)
    (h : collectPages pages = .error e) :
    (syncImagesInFolder env folder_id pages sess fs).1.success = false ∧
    (syncImagesInFolder env folder_id pages sess fs).1.error = some e := by
  simp [syncImagesInFolder, h]

lemma syncContentLoop_spec (env : SyncEnv) (imgPages : String → List Page) :
    ∀ (folders : List Folder) (sess : Sess) (fs : FS),
      (syncContentLoop env imgPages folders sess fs).1.length = folders.length ∧
      ∀ (k : Nat) (hk : k < folders.length),
        ∃ ir : ImgSyncResult,
          (syncContentLoop env imgPages folders sess fs).1[k]? =
            some (RunReport.content ir) ∧
          ir.folder_id = (folders[k]).id ∧
          ∀ e, collectPages (imgPages (folders[k]).id) = .error e →
            ir.success = false ∧ ir.error = some e := by
  intro folders
  induction folders with
  | nil =>
    intro sess fs
    exact ⟨rfl, fun k hk => absurd hk (by simp)⟩
  | cons f rest ih =>
    intro sess fs
    rw [syncContentLoop]
    constructor
    · simp [(ih _ _).1]
    · intro k hk
      cases k with
      | zero =>
        refine ⟨(syncImagesInFolder env f.id (imgPages f.id) sess fs).1, by simp, ?_, ?_⟩
        · simp [syncImages_result_folder_id]
        · intro e he
          simpa using syncImages_listing_error env f.id (imgPages f.id) sess fs e he
      | succ k =>
        have hk' : k < rest.length := by simpa using hk
        obtain ⟨ir, h1, h2, h3⟩ := (ih (syncImagesInFolder env f.id (imgPages f.id) sess fs).2.1
          (syncImagesInFolder env f.id (imgPages f.id) sess fs).2.2).2 k hk'
        exact ⟨ir, by simpa using h1, by simpa using h2, by simpa using h3⟩

/-- C9: in a full `sync_all_folders` run, a structure-phase failure halts
the run — the output is exactly the structure failure report and the
session is untouched, with no folder's content sync attempted; when the
structure phase succeeds, every surviving folder is attempted in order
regardless of the outcomes of its siblings: the output has one content
entry per folder carrying that folder's id, and a folder whose listing
raises gets a failure entry (with the cause) while the loop still reaches
every remaining folder. -/
theorem claimC9_structure_halt_folder_isolation (envS : StructEnv) (envI : SyncEnv)
    (rootLookup : Except String (List (String × String)))
    (structPages : List Page) (imgPages : String → List Page)
    (sess : Sess) (fs : FS) (hclean : sess.clean) :
    ((syncFolderStructure envS rootLookup structPages sess fs).1.success = false →
      (syncAllFolders envS envI rootLookup structPages imgPages sess fs).1 =
        [RunReport.structRes (syncFolderStructure envS rootLookup structPages sess fs).1] ∧
      (syncAllFolders envS envI rootLookup structPages imgPages sess fs).2.1 = sess) ∧
    ((syncFolderStructure envS rootLookup structPages sess fs).1.success = true →
      (syncAllFolders envS envI rootLookup structPages imgPages sess fs).1.length =
        (syncFolderStructure envS rootLookup structPages sess fs).2.1.cur.folders.length + 1 ∧
      ∀ (k : Nat)
        (hk : k < (syncFolderStructure envS rootLookup structPages sess fs).2.1.cur.folders.length),
        ∃ ir : ImgSyncResult,
          (syncAllFolders envS envI rootLookup structPages imgPages sess fs).1[k + 1]? =
            some (RunReport.content ir) ∧
          ir.folder_id =
            (((syncFolderStructure envS rootLookup structPages sess fs).2.1.cur.folders)[k]).id ∧
          ∀ e, collectPages (imgPages
              ((((syncFolderStructure envS rootLookup structPages sess fs).2.1.cur.folders)[k]).id)) =
              .error e →
            ir.success = false ∧ ir.error = some e) := by
  constructor
  · intro hfail
    constructor
    · simp [syncAllFolders, hfail]
    · rw [show (syncAllFolders envS envI rootLookup structPages imgPages sess fs).2.1 =
          (syncFolderStructure envS rootLookup structPages sess fs).2.1 from by
        simp [syncAllFolders, hfail]]
      exact syncFolderStructure_fail_state envS rootLookup structPages sess fs hclean hfail
  · intro hok
    have hspec := syncContentLoop_spec envI imgPages
      (syncFolderStructure envS rootLookup structPages sess fs).2.1.cur.folders
      (syncFolderStructure envS rootLookup structPages sess fs).2.1
      (syncFolderStructure envS rootLookup structPages sess fs).2.2.1
    constructor
    · simp [syncAllFolders, hok, hspec.1]
    · intro k hk
      obtain ⟨ir, h1, h2, h3⟩ := hspec.2 k hk
      refine ⟨ir, ?_, h2, h3⟩
      rw [show (syncAllFolders envS envI rootLookup structPages imgPages sess fs).1 =
          RunReport.structRes (syncFolderStructure envS rootLookup structPages sess fs).1 ::
            (syncContentLoop envI imgPages
              (syncFolderStructure envS rootLookup structPages sess fs).2.1.cur.folders
              (syncFolderStructure envS rootLookup structPages sess fs).2.1
              (syncFolderStructure envS rootLookup structPages sess fs).2.2.1).1 from by
        simp [syncAllFolders, hok]]
      simpa using h1

/-- Witness for C9 at concrete inputs: a failing structure phase yields
only its own report, and with a successful structure phase over folders
`F1`, `F2`, where `F1`'s listing raises, both folders still get entries —
so the output has three reports. -/
theorem claimC9_witness :
    (syncAllFolders { fromiso := fun _ => none, removeOk := fun _ => false }
        { fromiso := fun _ => none, renameOk := fun _ _ => false,
          removeOk := fun _ => false, downloadOk := fun _ => false }
        (Except.error "auth failure") [] (fun _ => [Except.ok []])
        { saved := { folders := [{ id := "f1", name := "F1" }], images := [] },
          cur := { folders := [{ id := "f1", name := "F1" }], images := [] } }
        (∅ : FS)).1 =
      [RunReport.structRes { success := false, error := some "auth failure" }] ∧
    (syncAllFolders { fromiso := fun _ => none, removeOk := fun _ => false }
        { fromiso := fun _ => none, renameOk := fun _ _ => false,
          removeOk := fun _ => false, downloadOk := fun _ => false }
        (Except.ok [("root", "RONIN_CMS")])
        [Except.ok [{ id := "f1", name := "F1" }, { id := "f2", name := "F2" }]]
        (fun fid => if fid = "f1" then [Except.error "rate limit"] else [Except.ok []])
        { saved := { folders := [{ id := "f1", name := "F1" }, { id := "f2", name := "F2" }],
                     images := [] },
          cur := { folders := [{ id := "f1", name := "F1" }, { id := "f2", name := "F2" }],
                   images := [] } }
        (∅ : FS)).1.length = 3 := by
  constructor
  · have h := (claimC9_structure_halt_folder_isolation
      { fromiso := fun _ => none, removeOk := fun _ => false }
      { fromiso := fun _ => none, renameOk := fun _ _ => false,
        removeOk := fun _ => false, downloadOk := fun _ => false }
      (Except.error "auth failure") [] (fun _ => [Except.ok []])
      { saved := { folders := [{ id := "f1", name := "F1" }], images := [] },
        cur := { folders := [{ id := "f1", name := "F1" }], images := [] } }
      (∅ : FS) rfl).1 (by decide)
    rw [h.1]
    decide
  · have h := (claimC9_structure_halt_folder_isolation
      { fromiso := fun _ => none, removeOk := fun _ => false }
      { fromiso := fun _ => none, renameOk := fun _ _ => false,
        removeOk := fun _ => false, downloadOk := fun _ => false }
      (Except.ok [("root", "RONIN_CMS")])
      [Except.ok [{ id := "f1", name := "F1" }, { id := "f2", name := "F2" }]]
      (fun fid => if fid = "f1" then [Except.error "rate limit"] else [Except.ok []])
      { saved := { folders := [{ id := "f1", name := "F1" }, { id := "f2", name := "F2" }],
                   images := [] },
        cur := { folders := [{ id := "f1", name := "F1" }, { id := "f2", name := "F2" }],
                 images := [] } }
      (∅ : FS) rfl).2 (by decide)
    rw [h.1]
    decide

end RoninSync
